import Mathlib

/- Shallow embedding of the DDR ingest pipeline from src/ddr/DDR/ingest.py.

   The filesystem is a list of existing file paths.  External collaborators
   that are not part of this repository (hash computation in DDR.util,
   imaging, the identifier module, the dvcs wrapper around git, metadata
   object classes) are parameters gathered in the Env structure.  Every
   pipeline step appends events to a trace carried in the state; audit log
   writes of AddFileLogger are log events in that trace. -/

namespace DDR

/-- Python os.path.join restricted to the shapes exercised by ingest.py:
the second component is relative and components carry no trailing slash. -/
def pathJoin (a b : String) : String :=
  if a = "" then b else a ++ "/" ++ b

/-- Characters after the last slash of a character list. -/
def basenameChars : List Char → List Char
  | [] => []
  | c :: cs =>
    if cs.contains ('/') then basenameChars cs
    else if c == '/' then cs else c :: cs

/-- Characters strictly before the last slash of a character list. -/
def dirnameChars : List Char → List Char
  | [] => []
  | c :: cs => if cs.contains ('/') then c :: dirnameChars cs else []

/-- Python os.path.basename. -/
def pyBasename (p : String) : String :=
  String.mk (basenameChars p.data)

/-- Python os.path.dirname. -/
def pyDirname (p : String) : String :=
  String.mk (dirnameChars p.data)

/-- Whether the first character list is an initial segment of the second. -/
def startsWithChars : List Char → List Char → Bool
  | [], _ => true
  | _ :: _, [] => false
  | p :: ps, c :: cs => p == c && startsWithChars ps cs

/-- All-occurrence, left to right, non overlapping replacement over
character lists; the fuel argument is instantiated with the length of the
scanned list, which bounds the number of steps of the scan. -/
def replaceFuel (pat rep : List Char) : Nat → List Char → List Char
  | _, [] => []
  | 0, l => l
  | n + 1, c :: cs =>
    if startsWithChars pat (c :: cs) then
      rep ++ replaceFuel pat rep n (List.drop (pat.length - 1) cs)
    else c :: replaceFuel pat rep n cs

/-- Python str.replace restricted to a non empty pattern (ingest.py only
strips path stems ending in a slash). -/
def pyReplace (s pat rep : String) : String :=
  if pat.data.isEmpty then s
  else String.mk (replaceFuel pat.data rep.data s.data.length s.data)

/-- Extension part of Python os.path.splitext: the suffix of the basename
starting at its last dot, where leading dots of the basename do not count;
empty when there is no such dot. -/
def pySplitextExt (p : String) : String :=
  let name := pyBasename p
  let rest := name.toList.dropWhile (fun c => c == '.')
  if rest.contains '.' then
    String.mk ('.' :: (rest.reverse.takeWhile (fun c => !(c == '.'))).reverse)
  else ""

/-- Root part of Python os.path.splitext. -/
def pySplitextRoot (p : String) : String :=
  p.dropRight (pySplitextExt p).length

/-- Rendering of a Python list of strings by the percent-s format operator,
quote characters omitted. -/
def pyListRepr (l : List String) : String :=
  "[" ++ String.intercalate (", ") l ++ "]"

/-- Format of one audit log line, from AddFileLogger.entry: a bracketed
timestamp, the status token, a dash and the message, newline terminated. -/
def entry_line (timestamp status msg : String) : String :=
  "[" ++ timestamp ++ "] " ++ status ++ " - " ++ msg ++ "\n"

/-- Status token passed to AddFileLogger.entry by AddFileLogger.ok. -/
def ok_token : String := "ok"

/-- Status token passed to AddFileLogger.entry by AddFileLogger.not_ok. -/
def not_ok_token : String := "not ok"

/-- Line appended by AddFileLogger.ok. -/
def ok_line (timestamp msg : String) : String := entry_line timestamp ok_token msg

/-- Line appended by AddFileLogger.not_ok. -/
def not_ok_line (timestamp msg : String) : String := entry_line timestamp not_ok_token msg

/-- Journal location from the function log underscore path of ingest.py:
os.path.join of the base directory, the addfile literal, the collection id
of the identifier and the identifier id with a log suffix. -/
def log_path (baseDir collectionId objectId : String) : String :=
  pathJoin (pathJoin (pathJoin baseDir ("addfile")) collectionId) (objectId ++ ".log")

/-- Events observable during a pipeline run.  Log events are audit log
writes; the remaining events mark filesystem effects and pipeline steps. -/
inductive Ev where
  | log (ok : Bool) (msg : String)
  | checksum (algo : String)
  | extractXmp
  | deriveId
  | destCheck
  | mkdirDir (path : String)
  | copyFile (src dest : String)
  | thumbWrite (path : String)
  | writeJson (path : String)
  | moveEv (src dest : String)
  | batchMoved (fails : List String)
  | appendChild
  | writeEntityJson
  | stageEv
  | annexStageEv
  | changelogEv
  | commitEv
  deriving DecidableEq

/-- Exceptions raised by the embedded code.  FileExistsException and
FileMissingException are the two classes defined in ingest.py; exception
covers the plain Exception class used by default by AddFileLogger.crash and
by raise statements; nameError models a Python NameError and typeError a
Python TypeError (raised by the call protocol on an arity mismatch, before
the called body runs). -/
inductive Err where
  | fileExists (msg : String)
  | fileMissing (msg : String)
  | exception (msg : String)
  | nameError
  | typeError
  deriving DecidableEq

/-- State threaded through the pipeline: the filesystem, the event trace of
this run, and the path of the addfile journal held by the logger. -/
structure St where
  fs : List String
  evs : List Ev
  logpath : String
  deriving DecidableEq

instance instDecEqExcept {ε α : Type} [DecidableEq ε] [DecidableEq α] :
    DecidableEq (Except ε α) := fun a b =>
  match a, b with
  | Except.error e₁, Except.error e₂ => decidable_of_iff (e₁ = e₂) (by simp)
  | Except.error _, Except.ok _ => isFalse (by simp)
  | Except.ok _, Except.error _ => isFalse (by simp)
  | Except.ok a₁, Except.ok a₂ => decidable_of_iff (a₁ = a₂) (by simp)

def emit (st : St) (e : Ev) : St := { st with evs := st.evs ++ [e] }

/-- AddFileLogger.ok. -/
def logOk (st : St) (msg : String) : St := emit st (Ev.log true msg)

/-- AddFileLogger.not_ok. -/
def logNotOk (st : St) (msg : String) : St := emit st (Ev.log false msg)

/-- AddFileLogger.crash: writes a not-ok entry, then raises the given
exception carrying the message. -/
def crashE {α : Type} (st : St) (msg : String) (mk : String → Err) : St × Except Err α :=
  (logNotOk st msg, Except.error (mk msg))

def fsHas (fs : List String) (p : String) : Bool := fs.contains p

def fsRemove (fs : List String) (p : String) : List String :=
  fs.filter (fun q => !(q == p))

def fsAdd (fs : List String) (p : String) : List String := p :: fsRemove fs p

def stAddFile (st : St) (p : String) : St := { st with fs := fsAdd st.fs p }

/-- Result record of imaging.thumbnail as consumed by make_access_file. -/
structure ThumbData where
  stdOut : String
  analysisStdErr : String
  convert : String
  statusCode : Int
  outExists : Bool
  outIsLink : Bool
  outSize : Nat
  stdErr : String
  dest : String
  deriving DecidableEq

/-- Attributes of the parent aggregate (the Entity object) read by the
pipeline; the Entity class itself lives outside this repository. -/
structure Entity where
  id : String
  filesPath : String
  jsonPath : String
  jsonPathRel : String
  collectionPath : String
  changelogPath : String
  changelogPathRel : String
  path : String
  deriving DecidableEq

/-- The ingested file record built by add_local_file; attributes of the
external File class that the pipeline reads or writes. -/
structure FileObj where
  id : String
  pathAbs : String
  basenameOrig : String
  size : Nat
  role : String
  md5 : String
  sha1 : String
  sha256 : String
  xmp : String
  accessAbs : Option String
  jsonPath : String
  jsonPathRel : String
  deriving DecidableEq

/-- External collaborators and injected outcomes of operating system calls.
fileHash stands for DDR.util.file_hash, xmp for imaging.extract_xmp, the
identifier fields for the identifier module, thumb for imaging.thumbnail
(none meaning the call raised), the Ok fields for success of shutil and
fileio primitives creating their destination, listStaged0 and stageResult
for the dvcs staging index (stageResult none meaning staging raised). -/
structure Env where
  fileHash : String → String → String
  xmp : String
  srcSize : Nat
  mediaBase : String
  collectionId : String
  parentId : String
  childId : String → String → String
  accessFilename : String → String
  fileJsonPath : String → String
  fileJsonPathRel : String → String
  fileAccessAbs : String → String
  thumb : Option ThumbData
  copyOk : String → String → Bool
  moveOk : String → String → Bool
  writeTextOk : String → Bool
  dirExists : String → Bool
  access : String → Bool
  isLink : String → Bool
  listStaged0 : List String
  stageResult : Option (List String)

/-- Function check_dir of ingest.py (lines 92 to 105).  Logs the check,
creates the directory when asked and missing, then crashes when the path is
still missing (FileMissingException) or lacks the required permission. -/
def check_dir (env : Env) (label path : String) (mkdir : Bool) (st : St) :
    St × Except Err Unit :=
  let st := logOk st ("check dir " ++ path ++ " (" ++ label ++ ")")
  let doMk := mkdir && !(env.dirExists path)
  let st := if doMk then emit st (Ev.mkdirDir path) else st
  if !(env.dirExists path || doMk) then
    crashE st (label ++ " does not exist: " ++ path) Err.fileMissing
  else if !(env.access path) then
    crashE st (label ++ " not has permission: " ++ path) Err.exception
  else (st, Except.ok ())

/-- Function checksums of ingest.py (lines 107 to 113).  Computes and logs
the three digests, then crashes when any of them is falsy (the empty
string), else returns the triple. -/
def checksums (env : Env) (srcPath : String) (st : St) :
    St × Except Err (String × String × String) :=
  let md5 := env.fileHash srcPath ("md5")
  let st := emit st (Ev.checksum ("md5"))
  let st := logOk st ("| md5: " ++ md5)
  let sha1 := env.fileHash srcPath ("sha1")
  let st := emit st (Ev.checksum ("sha1"))
  let st := logOk st ("| sha1: " ++ sha1)
  let sha256 := env.fileHash srcPath ("sha256")
  let st := emit st (Ev.checksum ("sha256"))
  let st := logOk st ("| sha256: " ++ sha256)
  if sha1 == "" || md5 == "" || sha256 == "" then
    crashE st ("Could not calculate checksums") Err.exception
  else (st, Except.ok (md5, sha1, sha256))

/-- Function destination_path of ingest.py (lines 115 to 119). -/
def destination_path (srcPath destDir fid : String) : String :=
  let srcBasename := pyBasename srcPath
  let srcExt := pySplitextExt srcBasename
  pathJoin destDir (fid ++ srcExt)

/-- Function temporary_path of ingest.py (lines 121 to 129); collectionId
and parentId come from the derived identifier. -/
def temporary_path (srcPath baseDir collectionId parentId : String) : String :=
  pathJoin
    (pathJoin (pathJoin (pathJoin (pathJoin baseDir ("tmp")) ("file-add")) collectionId)
      parentId)
    (pyBasename srcPath)

/-- Function temporary_path_renamed of ingest.py (lines 131 to 135). -/
def temporary_path_renamed (tmpPath destPath : String) : String :=
  pathJoin (pyDirname tmpPath) (pyBasename destPath)

/-- Function access_path of ingest.py (lines 137 to 142); the access
filename derivation of the File class is an external parameter. -/
def access_path (accessFilename : String → String) (tmpPathRenamed : String) : String :=
  pathJoin (pyDirname tmpPathRenamed) (pyBasename (accessFilename tmpPathRenamed))

/-- Semantics of shutil.move: raises when the source is missing; otherwise
the source is consumed and the destination created.  An injected failure
(moveOk false) models a move whose destination does not exist afterwards
even though the call returned: the filesystem is then left unchanged. -/
def shutil_move (env : Env) (st : St) (src dest : String) : St × Except Err Unit :=
  let st := emit st (Ev.moveEv src dest)
  if fsHas st.fs src then
    if env.moveOk src dest then
      ({ st with fs := fsAdd (fsRemove st.fs src) dest }, Except.ok ())
    else (st, Except.ok ())
  else (st, Except.error (Err.exception ("shutil.move: source missing: " ++ src)))

/-- Function move_files of ingest.py (lines 205 to 214).  Moves pairs in
order; when a move reports success but the destination does not exist, the
failing source is recorded and the loop breaks immediately. -/
def move_files (env : Env) (st : St) (files : List (String × String)) :
    St × Except Err (List String) :=
  match files with
  | [] => (st, Except.ok [])
  | (tmp, dest) :: rest =>
    let st := logOk st ("| mv " ++ tmp ++ " " ++ dest)
    match shutil_move env st tmp dest with
    | (st, Except.error e) => (st, Except.error e)
    | (st, Except.ok _) =>
      if !(fsHas st.fs dest) then
        (logNotOk st ("FAIL"), Except.ok [tmp])
      else move_files env st rest

/-- Function reverse_files_list of ingest.py (lines 216 to 217). -/
def reverse_files_list (files : List (String × String)) : List (String × String) :=
  files.map (fun p => (p.2, p.1))

/-- Code of the finally clause of move_new_files_back (ingest.py lines 232
to 236): logs the failure, logs each recorded failing source, then crashes.
The crash exception also replaces any exception re-raised by the except
clause, since it is raised while that exception propagates. -/
def mnfb_finally (st : St) (fails : List String) : St × Err :=
  let st := logNotOk st ("Failed to place one or more files to destination repo")
  let st := fails.foldl (fun s f => logNotOk s ("| " ++ f)) st
  let msg := "Bailing out. We are done here."
  (logNotOk st msg, Err.exception msg)

/-- Function move_new_files_back of ingest.py (lines 219 to 236).  It
computes the reversed pair list but then passes the original pair list to
move_files, so the moves are attempted in the forward direction again; the
reversed list is dead.  When that move_files call raises, the except clause
logs and re-raises and the fails variable keeps its initial empty value.
Either way the finally clause crashes, so the function always raises. -/
def move_new_files_back (env : Env) (st : St) (files : List (String × String))
    (failures : List String) : St × Err :=
  let st := logNotOk st (toString failures.length ++ " failures: " ++ pyListRepr failures)
  let st := logNotOk st ("Moving new files back to tmp_dir")
  let _reverse := reverse_files_list files
  match move_files env st files with
  | (st, Except.error _) =>
    let st := logNotOk st ("Unexpected error:")
    mnfb_finally st []
  | (st, Except.ok fails) => mnfb_finally st fails

/-- Names bound at module level in ingest.py: the classes and functions it
defines plus the names bound by its import statements. -/
def ingest_module_scope : List String :=
  ["FileExistsException", "FileMissingException", "AddFileLogger",
   "_log_path", "addfile_logger", "check_dir", "checksums",
   "destination_path", "temporary_path", "temporary_path_renamed",
   "access_path", "copy_to_workdir", "make_access_file",
   "write_object_metadata", "move_files", "reverse_files_list",
   "move_new_files_back", "move_existing_files_back", "predict_staged",
   "stage_files", "add_local_file", "add_external_file", "add_access",
   "add_file_commit", "datetime", "Exception", "os", "shutil", "sys",
   "traceback", "changelog", "config", "dvcs", "fileio", "identifier",
   "imaging", "util"]

/-- Parameters of move_existing_files_back, its only local names. -/
def move_existing_files_back_locals : List String := ["files", "log"]

/-- Arity of move_existing_files_back (ingest.py line 238: files, log). -/
def move_existing_files_back_arity : Nat := move_existing_files_back_locals.length

/-- Number of arguments passed at the sole call site of
move_existing_files_back (ingest.py line 689: existing_files, mvold_fails,
log). -/
def add_access_mefb_call_args : List String := ["existing_files", "mvold_fails", "log"]

/-- Name resolution inside move_existing_files_back: a name resolves when
it is a local or a module level name of ingest.py. -/
def mefb_resolves (n : String) : Bool :=
  move_existing_files_back_locals.contains n || ingest_module_scope.contains n

/-- Function move_existing_files_back of ingest.py (lines 238 to 243).  Its
first statement formats the names tmp_entity_json and entity for a log
call; neither name resolves (see mefb_resolves), so Python raises NameError
while evaluating the format arguments, before the log write and before any
filesystem operation.  The state is therefore returned unchanged. -/
def move_existing_files_back (st : St) (files : List (String × String)) :
    St × Except Err Unit :=
  (st, Except.error Err.nameError)

/-- Function predict_staged of ingest.py (lines 245 to 259): the already
staged paths followed by the planned paths not already staged. -/
def predict_staged (already planned : List String) : List String :=
  already ++ planned.filter (fun path => !already.contains path)

/-- Cleanup loop of stage_files (ingest.py lines 312 to 317): every pair
whose destination is a symlink is logged and skipped, every other pair is
moved from destination back to its temporary path. -/
def cleanup_moves (env : Env) (st : St) (newFiles : List (String × String)) :
    St × Except Err Unit :=
  match newFiles with
  | [] => (st, Except.ok ())
  | (tmp, dest) :: rest =>
    if env.isLink dest then
      cleanup_moves env (logNotOk st ("| link (not moving) " ++ dest)) rest
    else
      let st := logNotOk st ("| mv " ++ dest ++ " " ++ tmp)
      match shutil_move env st dest tmp with
      | (st, Except.error e) => (st, Except.error e)
      | (st, Except.ok _) => cleanup_moves env st rest

/-- Optional listing of the staged files inside the finally clause of
stage_files (ingest.py lines 291 to 295). -/
def stage_show (staged : List String) (showStaged : Bool) (st : St) : St :=
  if showStaged then
    let st := logOk st ("| " ++ toString staged.length ++ " files staged:")
    let st := logOk st ("show_staged true")
    staged.foldl (fun s p => logOk s ("|   " ++ p)) st
  else st

/-- Finally clause of stage_files (ingest.py lines 290 to 319): optional
listing of the staged files, then the count comparison; on a match the
success is logged and the repo handle returned, on a mismatch the mismatch
is logged, the cleanup loop runs, and the function crashes. -/
def stage_finally (env : Env) (st : St) (repo : String)
    (staged stageNew stageAlready stagePredicted : List String)
    (newFiles : List (String × String)) (showStaged : Bool) :
    St × Except Err String :=
  let st := stage_show staged showStaged st
  if staged.length == stagePredicted.length then
    let st := logOk st ("| " ++ toString staged.length ++ " files staged (" ++
      toString stageNew.length ++ " new, " ++ toString stageAlready.length ++ " modified)")
    (st, Except.ok repo)
  else
    let st := logNotOk st (toString staged.length ++ " new files staged (should be " ++
      toString stagePredicted.length ++ ")")
    let st := logNotOk st ("File staging aborted. Cleaning up")
    match cleanup_moves env st newFiles with
    | (st, Except.error e) => (st, Except.error e)
    | (st, Except.ok _) =>
      let st := logNotOk st ("finished cleanup. good luck...")
      crashE st ("Add file aborted, see log file for details: " ++ st.logpath) Err.exception

/-- Function stage_files of ingest.py (lines 261 to 320).  Plans and logs
the staging, snapshots the already staged set, computes the prediction,
registers the files (stageResult none models an exception raised by the
registration, caught and logged, leaving the staged snapshot empty), then
runs the finally clause. -/
def stage_files (env : Env) (entity : Entity) (gitFiles annexFiles : List String)
    (newFiles : List (String × String)) (showStaged : Bool) (st : St) :
    St × Except Err String :=
  let repo := entity.collectionPath
  let st := logOk st ("| repo " ++ repo)
  let stagePlanned := gitFiles ++ annexFiles
  let stageAlready := env.listStaged0
  let stagePredicted := predict_staged stageAlready stagePlanned
  let stageNew := stagePlanned.filter (fun x => !stageAlready.contains x)
  let st := logOk st ("| " ++ toString stagePlanned.length ++ " files to stage:")
  let st := stagePlanned.foldl (fun s p => logOk s ("|   " ++ p)) st
  match env.stageResult with
  | none =>
    let st := logOk st ("git stage")
    let st := emit st Ev.stageEv
    let st := logNotOk st ("Traceback (most recent call last): staging raised")
    stage_finally env st repo [] stageNew stageAlready stagePredicted newFiles showStaged
  | some staged =>
    let st := logOk st ("git stage")
    let st := emit st Ev.stageEv
    let st := logOk st ("annex stage")
    let st := emit st Ev.annexStageEv
    let st := logOk st ("ok")
    stage_finally env st repo staged stageNew stageAlready stagePredicted newFiles showStaged

/-- Rename step of copy_to_workdir (ingest.py lines 152 to 158): the move
inside the work directory and the check that crashes when neither the
renamed nor the original temporary file exists afterwards. -/
def copy_rename (env : Env) (tmpPath tmpPathRenamed : String) (st : St) :
    St × Except Err Unit :=
  match shutil_move env st tmpPath tmpPathRenamed with
  | (st, Except.error e) => (st, Except.error e)
  | (st, Except.ok _) =>
    if !(fsHas st.fs tmpPathRenamed) && !(fsHas st.fs tmpPath) then
      crashE st ("File rename failed: " ++ tmpPath ++ " -> " ++ tmpPathRenamed)
        Err.exception
    else (st, Except.ok ())

/-- Function copy_to_workdir of ingest.py (lines 144 to 158).  Copies the
source into the temporary path, crashes when the copy left no file, then
renames the copy inside the work directory. -/
def copy_to_workdir (env : Env) (srcPath tmpPath tmpPathRenamed : String) (st : St) :
    St × Except Err Unit :=
  let st := logOk st ("| cp " ++ srcPath ++ " " ++ tmpPath)
  let st := emit st (Ev.copyFile srcPath tmpPath)
  let st := if env.copyOk srcPath tmpPath then stAddFile st tmpPath else st
  if fsHas st.fs tmpPath then
    let st := logOk st ("| done")
    let st := logOk st ("| Renaming " ++ pyBasename tmpPath ++ " -> " ++
      pyBasename tmpPathRenamed)
    copy_rename env tmpPath tmpPathRenamed st
  else crashE st ("Copy failed!") Err.exception

/-- Function make_access_file of ingest.py (lines 160 to 195).  When the
thumbnail call raises (thumb none), the traceback is written as a not-ok
entry and none is returned.  Otherwise every reported anomaly (stderr
output, missing output, zero length output, symlink output) is written as a
not-ok entry, but the reported destination is returned in every case.  The
function never raises; the traceback text is abstracted to a fixed line. -/
def make_access_file (thumb : Option ThumbData) (accessDestPath : String) (st : St) :
    St × Option String :=
  let st := logOk st ("| " ++ accessDestPath)
  match thumb with
  | none =>
    (logNotOk st ("Traceback (most recent call last): imaging.thumbnail raised"), none)
  | some d =>
    let st := if d.outExists then emit (stAddFile st d.dest) (Ev.thumbWrite d.dest) else st
    let st := logOk st ("| identify: " ++ d.stdOut)
    let st := if d.analysisStdErr != "" then
        logNotOk st ("| identify: " ++ d.analysisStdErr)
      else st
    let st := logOk st ("| " ++ d.convert)
    let st := logOk st ("| convert: status:" ++ toString d.statusCode ++ " exists:" ++
      toString d.outExists ++ " islink:" ++ toString d.outIsLink ++ " size:" ++
      toString d.outSize)
    let st := if d.stdErr != "" then logNotOk st ("| convert: " ++ d.stdErr) else st
    let st := if !d.outExists then logNotOk st ("Access file was not created!") else st
    let st := if d.outSize == 0 then
        logNotOk st ("Dest file created but zero length!")
      else st
    let st := if d.outIsLink then logNotOk st ("DEST FILE IS A SYMLINK!") else st
    let st := logOk st ("| done")
    (st, some d.dest)

/-- Function write_object_metadata of ingest.py (lines 197 to 203).  Writes
the dumped object json into the work directory and crashes when the file
does not exist afterwards. -/
def write_object_metadata (env : Env) (objJsonPath tmpDir : String) (st : St) :
    St × Except Err String :=
  let tmpJson := pathJoin tmpDir (pyBasename objJsonPath)
  let st := logOk st ("| " ++ tmpJson)
  let st := emit st (Ev.writeJson tmpJson)
  let st := if env.writeTextOk tmpJson then stAddFile st tmpJson else st
  if !(fsHas st.fs tmpJson) then
    crashE st ("Could not write file metadata " ++ tmpJson) Err.exception
  else (st, Except.ok tmpJson)

/-- Paths derived by add_local_file (ingest.py lines 383 to 388). -/
structure AlfPaths where
  fid : String
  destPath : String
  tmpPath : String
  tmpDir : String
  tmpPathRenamed : String
  accessDestPath : String
  destDir : String
  deriving DecidableEq

/-- Opening segment of add_local_file (ingest.py lines 352 to 367): header
logs, source directory check, size log, checksums, xmp extraction. -/
def alf_validate (env : Env) (entity : Entity) (srcPath dataRepr : String) (st : St) :
    St × Except Err (String × String × String) :=
  let st := logOk st ("------------------------------------------------------------------------")
  let st := logOk st ("DDR.models.Entity.add_file: START")
  let st := logOk st ("entity: " ++ entity.id)
  let st := logOk st ("data: " ++ dataRepr)
  let st := logOk st ("Examining source file")
  match check_dir env ("| src_path") srcPath false st with
  | (st, Except.error e) => (st, Except.error e)
  | (st, Except.ok _) =>
    let st := logOk st ("| file size " ++ toString env.srcSize)
    match checksums env srcPath st with
    | (st, Except.error e) => (st, Except.error e)
    | (st, Except.ok hashes) =>
      let st := logOk st ("| extracting XMP data")
      let st := emit st Ev.extractXmp
      (st, Except.ok hashes)

/-- Identifier segment of add_local_file (ingest.py lines 369 to 388):
derivation of the child file identifier from the role and the first ten
characters of the sha1 digest, and computation of the derived paths. -/
def alf_identify (env : Env) (entity : Entity) (srcPath role sha1 : String) (st : St) :
    St × AlfPaths :=
  let st := logOk st ("Identifier")
  let sha1Head := sha1.take 10
  let st := logOk st ("| idparts role=" ++ role ++ " sha1=" ++ sha1Head)
  let fid := env.childId role sha1Head
  let st := emit st Ev.deriveId
  let st := logOk st ("| identifier " ++ fid)
  let destPath := destination_path srcPath entity.filesPath fid
  let tmpPath := temporary_path srcPath env.mediaBase env.collectionId env.parentId
  let tmpDir := pyDirname tmpPath
  let tmpPathRenamed := temporary_path_renamed tmpPath destPath
  let accessDestPath := access_path env.accessFilename tmpPathRenamed
  let destDir := pyDirname destPath
  (st, { fid := fid, destPath := destPath, tmpPath := tmpPath, tmpDir := tmpDir,
         tmpPathRenamed := tmpPathRenamed, accessDestPath := accessDestPath,
         destDir := destDir })

/-- Checking segment of add_local_file (ingest.py lines 390 to 399): the
duplicate destination check (FileExistsException when the destination path
already exists, message text abbreviated), then the two directory checks
with directory creation. -/
def alf_check (env : Env) (srcPath : String) (paths : AlfPaths) (st : St) :
    St × Except Err Unit :=
  let st := logOk st ("Checking files/dirs")
  let st := emit st Ev.destCheck
  if fsHas st.fs paths.destPath then
    crashE st ("Cant add " ++ pyBasename srcPath ++ ". Already exists: " ++ paths.fid)
      Err.fileExists
  else
    match check_dir env ("| tmp_dir") paths.tmpDir true st with
    | (st, Except.error e) => (st, Except.error e)
    | (st, Except.ok _) => check_dir env ("| dest_dir") paths.destDir true st

/-- Access file step of the work directory segment: make_access_file with
its result wrapped for the pipeline. -/
def alf_workdir_access (thumb : Option ThumbData) (accessDestPath : String) (st : St) :
    St × Except Err (Option String) :=
  let r := make_access_file thumb accessDestPath st
  (r.1, Except.ok r.2)

/-- Work directory segment of add_local_file (ingest.py lines 401 to 407):
copy into the work directory, then access file generation. -/
def alf_workdir (env : Env) (srcPath : String) (paths : AlfPaths) (st : St) :
    St × Except Err (Option String) :=
  let st := logOk st ("Copying to work dir")
  match copy_to_workdir env srcPath paths.tmpPath paths.tmpPathRenamed st with
  | (st, Except.error e) => (st, Except.error e)
  | (st, Except.ok _) =>
    let st := logOk st ("Making access file")
    let st := if fsHas st.fs paths.accessDestPath then
        logNotOk st ("Access tmpfile already exists: " ++ paths.accessDestPath)
      else st
    alf_workdir_access env.thumb paths.accessDestPath st

/-- Metadata write step of the file object segment: write_object_metadata
with its result paired with the file object. -/
def alf_fileobj_write (env : Env) (f : FileObj) (tmpDir : String) (st : St) :
    St × Except Err (FileObj × String) :=
  match write_object_metadata env f.jsonPath tmpDir st with
  | (st, Except.error e) => (st, Except.error e)
  | (st, Except.ok tmpFileJson) => (st, Except.ok (f, tmpFileJson))

/-- File object segment of add_local_file (ingest.py lines 409 to 452):
construction of the File object (the assignment loop over the external form
data schema is not modeled), attachment of the access file when it exists,
the append of the file object to the entity, and the metadata write into
the work directory. -/
def alf_fileobj (env : Env) (entity : Entity) (srcPath role md5 sha1 sha256 : String)
    (paths : AlfPaths) (tmpAccessPath : Option String) (st : St) :
    St × Except Err (FileObj × String) :=
  let st := logOk st ("File object")
  let basenameOrig := pyBasename srcPath
  let basenameExt := pySplitextExt basenameOrig
  let pathAbsExt := pySplitextExt paths.destPath
  let addExt := basenameExt != "" && pathAbsExt == ""
  let pathAbs := if addExt then paths.destPath ++ basenameExt else paths.destPath
  let st := if addExt then logOk st ("| basename_ext " ++ basenameExt) else st
  let st := logOk st ("| file_ " ++ paths.fid)
  let st := logOk st ("| file_.basename_orig: " ++ basenameOrig)
  let st := logOk st ("| file_.path_abs: " ++ pathAbs)
  let st := logOk st ("| file_.size: " ++ toString env.srcSize)
  let st := logOk st ("Attaching access file")
  let stAcc :=
    match tmpAccessPath with
    | some p =>
      if fsHas st.fs p then
        let a := env.fileAccessAbs paths.fid
        let st := logOk st ("| file_.access_rel: " ++ pyBasename a)
        let st := logOk st ("| file_.access_abs: " ++ a)
        (st, some a)
      else (logNotOk st ("no access file"), (none : Option String))
    | none => (logNotOk st ("no access file"), (none : Option String))
  let st := stAcc.1
  let f : FileObj :=
    { id := paths.fid, pathAbs := pathAbs, basenameOrig := basenameOrig,
      size := env.srcSize, role := role, md5 := md5, sha1 := sha1, sha256 := sha256,
      xmp := env.xmp, accessAbs := stAcc.2,
      jsonPath := env.fileJsonPath paths.fid, jsonPathRel := env.fileJsonPathRel paths.fid }
  let st := logOk st ("Attaching file to entity")
  let st := emit st Ev.appendChild
  let st := logOk st ("| done")
  let st := logOk st ("Writing object metadata")
  alf_fileobj_write env f paths.tmpDir st

/-- Core of the relocation segment of add_local_file (ingest.py lines 455
to 477), for a computed new files list: the batch move, the batchMoved
marker, and either the entity metadata write (zero failures) or the
rollback attempt followed by the crash. -/
def alf_move_core (env : Env) (entity : Entity)
    (newFiles : List (String × String)) (st : St) :
    St × Except Err (List (String × String)) :=
  match move_files env st newFiles with
  | (st, Except.error e) => (st, Except.error e)
  | (st, Except.ok fails) =>
    let st := emit st (Ev.batchMoved fails)
    if fails.isEmpty then
      let st := logOk st ("| all files moved")
      let st := logOk st ("Writing entity.json")
      let st := emit st Ev.writeEntityJson
      let st := stAddFile st entity.jsonPath
      (st, Except.ok newFiles)
    else
      let st := logNotOk st ("Failed to place one or more new files to destination repo")
      let r := move_new_files_back env st newFiles fails
      (r.1, Except.error r.2)

/-- Relocation segment of add_local_file (ingest.py lines 455 to 477): the
new files list (object metadata, primary binary, optional access file) is
assembled and handed to the core. -/
def alf_move (env : Env) (entity : Entity) (f : FileObj) (tmpFileJson : String)
    (paths : AlfPaths) (tmpAccessPath : Option String) (st : St) :
    St × Except Err (List (String × String)) :=
  let st := logOk st ("Moving files to dest_dir")
  let newFiles0 := [(tmpFileJson, f.jsonPath), (paths.tmpPathRenamed, f.pathAbs)]
  let newFiles :=
    match tmpAccessPath, f.accessAbs with
    | some p, some a => if fsHas st.fs p then newFiles0 ++ [(p, a)] else newFiles0
    | _, _ => newFiles0
  alf_move_core env entity newFiles st

/-- Staging segment of add_local_file (ingest.py lines 479 to 489): the git
file list (entity and file metadata), the annex file list (primary binary
and access file when present, relative to the collection), then
stage_files. -/
def alf_stage (env : Env) (entity : Entity) (f : FileObj)
    (newFiles : List (String × String)) (showStaged : Bool) (st : St) :
    St × Except Err String :=
  let st := logOk st ("Staging files")
  let gitFiles := [entity.jsonPathRel, f.jsonPathRel]
  let annexFiles0 := [pyReplace f.pathAbs (entity.collectionPath ++ "/") ("")]
  let annexFiles :=
    match f.accessAbs with
    | some a =>
      if fsHas st.fs a then
        annexFiles0 ++ [pyReplace a (entity.collectionPath ++ "/") ("")]
      else annexFiles0
    | none => annexFiles0
  stage_files env entity gitFiles annexFiles newFiles showStaged st

/-- Tail of add_local_file from the staging segment on. -/
def alf_after_move (env : Env) (entity : Entity) (f : FileObj)
    (newFiles : List (String × String)) (showStaged : Bool) (st : St) :
    St × Except Err (FileObj × String) :=
  match alf_stage env entity f newFiles showStaged st with
  | (st, Except.error e) => (st, Except.error e)
  | (st, Except.ok repo) => (st, Except.ok (f, repo))

/-- Tail of add_local_file from the relocation segment on. -/
def alf_after_fileobj (env : Env) (entity : Entity) (f : FileObj) (tmpFileJson : String)
    (paths : AlfPaths) (tmpAccessPath : Option String) (showStaged : Bool) (st : St) :
    St × Except Err (FileObj × String) :=
  match alf_move env entity f tmpFileJson paths tmpAccessPath st with
  | (st, Except.error e) => (st, Except.error e)
  | (st, Except.ok newFiles) => alf_after_move env entity f newFiles showStaged st

/-- Tail of add_local_file from the work directory segment on. -/
def alf_after_check (env : Env) (entity : Entity) (srcPath role md5 sha1 sha256 : String)
    (paths : AlfPaths) (showStaged : Bool) (st : St) :
    St × Except Err (FileObj × String) :=
  match alf_workdir env srcPath paths st with
  | (st, Except.error e) => (st, Except.error e)
  | (st, Except.ok tmpAccessPath) =>
    match alf_fileobj env entity srcPath role md5 sha1 sha256 paths tmpAccessPath st with
    | (st, Except.error e) => (st, Except.error e)
    | (st, Except.ok (f, tmpFileJson)) =>
      alf_after_fileobj env entity f tmpFileJson paths tmpAccessPath showStaged st

/-- Function add_local_file of ingest.py (lines 322 to 493), composed of
its segments; returns the File object and the repo handle on success. -/
def add_local_file (env : Env) (entity : Entity) (srcPath role dataRepr : String)
    (showStaged : Bool) (st : St) : St × Except Err (FileObj × String) :=
  match alf_validate env entity srcPath dataRepr st with
  | (st, Except.error e) => (st, Except.error e)
  | (st, Except.ok (md5, sha1, sha256)) =>
    match alf_identify env entity srcPath role sha1 st with
    | (st, paths) =>
      match alf_check env srcPath paths st with
      | (st, Except.error e) => (st, Except.error e)
      | (st, Except.ok _) =>
        alf_after_check env entity srcPath role md5 sha1 sha256 paths showStaged st

/-- Metadata relocation block of add_access (ingest.py lines 682 to 691):
the temporary file json is moved to its destination; when that move records
a failure the restore path invokes move_existing_files_back with three
arguments although the function takes two, so the call protocol raises
TypeError at the call site, before the function body runs; only on a
matching arity would the body itself run (and raise NameError, see
move_existing_files_back). -/
def add_access_move_json (env : Env) (tmpFileJson jsonPath : String) (st : St) :
    St × Except Err Unit :=
  let st := logOk st ("Moving file .json to dest_dir")
  match move_files env st [(tmpFileJson, jsonPath)] with
  | (st, Except.error e) => (st, Except.error e)
  | (st, Except.ok fails) =>
    if fails.isEmpty then (logOk st ("| all files moved"), Except.ok ())
    else
      let st := logNotOk st ("Failed to update metadata in destination repo")
      if add_access_mefb_call_args.length == move_existing_files_back_arity then
        move_existing_files_back st [(tmpFileJson, jsonPath)]
      else (st, Except.error Err.typeError)

/-- Function add_file_commit of ingest.py (lines 706 to 738).  With a non
empty staged set and an empty modified set it writes the changelog entry,
stages the changelog and commits; otherwise it logs the sizes and both
lists as not-ok entries and raises an Exception listing the modified
paths. -/
def add_file_commit (entity : Entity) (fPathAbs agent : String)
    (staged modified : List String) (commitSha : String) (st : St) :
    St × Except Err String :=
  let st := logOk st ("add_file_commit(" ++ fPathAbs ++ ", " ++ agent ++ ")")
  if !staged.isEmpty && modified.isEmpty then
    let st := logOk st ("All files staged.")
    let st := logOk st ("Updating changelog")
    let st := emit st Ev.changelogEv
    let st := logOk st ("git add " ++ entity.changelogPathRel)
    let st := emit st Ev.stageEv
    let st := logOk st ("Committing")
    let st := emit st Ev.commitEv
    let st := logOk st ("commit: " ++ commitSha)
    (st, Except.ok commitSha)
  else
    let st := logNotOk st (toString staged.length ++ " files staged, " ++
      toString modified.length ++ " files modified")
    let st := logNotOk st ("staged " ++ pyListRepr staged)
    let st := logNotOk st ("modified " ++ pyListRepr modified)
    let st := logNotOk st ("Can not commit!")
    (st, Except.error (Err.exception ("Could not commit bc " ++
      toString modified.length ++ " unstaged files: " ++ pyListRepr modified)))

/-- Events that create or change an entry of the scratch area or the
destination tree: directory creation, the workdir copy, the thumbnail
output, metadata writes and moves.  Log writes, checks and reads are not
writes. -/
def evWrite : Ev → Bool
  | Ev.mkdirDir _ => true
  | Ev.copyFile _ _ => true
  | Ev.thumbWrite _ => true
  | Ev.writeJson _ => true
  | Ev.moveEv _ _ => true
  | Ev.writeEntityJson => true
  | _ => false

def evIsLog : Ev → Bool
  | Ev.log _ _ => true
  | _ => false

def evIsChecksum : Ev → Bool
  | Ev.checksum _ => true
  | _ => false

def evIsBatchMoved : Ev → Bool
  | Ev.batchMoved _ => true
  | _ => false

/-- Scanner for the ordering property of the duplicate check: true when no
write event appears strictly before the first destCheck event. -/
def noWriteBeforeDestCheck : List Ev → Bool
  | [] => true
  | Ev.destCheck :: _ => true
  | e :: rest => !evWrite e && noWriteBeforeDestCheck rest

/-- Scanner for the metadata-last property: the writeEntityJson event may
appear only after a batchMoved event whose failure list is empty. -/
def ejOnlyAfterCleanMove : List Ev → Bool
  | [] => true
  | Ev.writeEntityJson :: _ => false
  | Ev.batchMoved fails :: rest =>
    fails.isEmpty || rest.all (fun e => !(e == Ev.writeEntityJson))
  | _ :: rest => ejOnlyAfterCleanMove rest

/-- Prefix of a trace strictly before its first destCheck event. -/
def beforeDestCheck (t : List Ev) : List Ev :=
  t.takeWhile (fun e => !(e == Ev.destCheck))

/-- Events that are neither writes nor the duplicate check. -/
def evNoWriteNoDC (e : Ev) : Bool := !evWrite e && !(e == Ev.destCheck)

/-- Events that are neither the entity metadata write nor a batch move
marker. -/
def evNoEJBM (e : Ev) : Bool := !(e == Ev.writeEntityJson) && !(evIsBatchMoved e)

/-- One state extends another by appended events all satisfying p. -/
def Extends (p : Ev → Bool) (x y : St) : Prop :=
  ∃ δ, y.evs = x.evs ++ δ ∧ δ.all p = true

/-- Relation between a base state and a later state legal for the metadata
last property: the appended events either hold no entity metadata write and
no batch marker at all, or open with a clean batch marker, or hold a batch
marker whose failure list may be anything but is never followed by the
entity metadata write. -/
def EjShapeFrom (st₀ y : St) : Prop :=
  (∃ δ, y.evs = st₀.evs ++ δ ∧ δ.all evNoEJBM = true) ∨
  (∃ δ₁ δ₂, y.evs = st₀.evs ++ (δ₁ ++ Ev.batchMoved [] :: δ₂) ∧
    δ₁.all evNoEJBM = true) ∨
  (∃ δ₁ fails δ₂, y.evs = st₀.evs ++ (δ₁ ++ Ev.batchMoved fails :: δ₂) ∧
    δ₁.all evNoEJBM = true ∧ δ₂.all (fun e => !(e == Ev.writeEntityJson)) = true)

/-- Prefix of a trace strictly before its first batchMoved event. -/
def beforeBatchMoved (t : List Ev) : List Ev :=
  t.takeWhile (fun e => !(evIsBatchMoved e))

/-- Concrete parent aggregate used for the concrete runs below. -/
def entityC : Entity :=
  { id := "ddr-test-1-2", filesPath := "/repo/files", jsonPath := "/repo/entity.json",
    jsonPathRel := "entity.json", collectionPath := "/repo",
    changelogPath := "/repo/changelog", changelogPathRel := "changelog",
    path := "/repo" }

/-- Concrete environment in which every external call succeeds and the
thumbnail call raises, so the run has no access file.  The staging snapshot
has three entries, matching the predicted count for the two git files and
one annex file of the run. -/
def envC : Env :=
  { fileHash := fun _ algo => algo ++ "hash",
    xmp := "xmpdata",
    srcSize := 42,
    mediaBase := "/media",
    collectionId := "ddr-test-1",
    parentId := "ddr-test-1-2",
    childId := fun role pfx => "ddr-test-1-2-" ++ role ++ "-" ++ pfx,
    accessFilename := fun p => pySplitextRoot p ++ "-a.jpg",
    fileJsonPath := fun fid => "/repo/files/" ++ fid ++ ".json",
    fileJsonPathRel := fun fid => "files/" ++ fid ++ ".json",
    fileAccessAbs := fun fid => "/repo/files/" ++ fid ++ "-a.jpg",
    thumb := none,
    copyOk := fun _ _ => true,
    moveOk := fun _ _ => true,
    writeTextOk := fun _ => true,
    dirExists := fun _ => true,
    access := fun _ => true,
    isLink := fun _ => false,
    listStaged0 := [],
    stageResult := some ["s1", "s2", "s3"] }

/-- Initial state of the concrete runs: only the source file exists. -/
def stC : St := { fs := ["/src/photo.jpg"], evs := [], logpath := "/log/addfile.log" }

/-- Concrete run of add_local_file in envC. -/
def runC : St × Except Err (FileObj × String) :=
  add_local_file envC entityC "/src/photo.jpg" "master" "{}" true stC

/-- Environment of the relocation failure scenario: every move succeeds
except the one whose source is the second scratch path. -/
def envC1 : Env := { envC with moveOk := fun src _ => !(src == "t2") }

/-- Environment in which every move fails to land. -/
def envNoMove : Env := { envC with moveOk := fun _ _ => false }

/-- Environment of the staging mismatch scenario: the staged snapshot after
registration has two entries although one path is planned. -/
def envC4 : Env := { envC with listStaged0 := [], stageResult := some ["a", "b"] }

/-- Environment of the checksum failure scenario: every digest computation
returns the empty string. -/
def envBadHash : Env := { envC with fileHash := fun _ _ => "" }

/-- Thumbnail result of a zero length rendition: the process exited with a
failure status and the destination file exists but is empty. -/
def thumbZero : ThumbData :=
  { stdOut := "id-out", analysisStdErr := "", convert := "convert-cmd",
    statusCode := 1, outExists := true, outIsLink := false, outSize := 0,
    stdErr := "", dest := "/tmp/access.jpg" }

theorem string_append_ne_empty (s t : String) (h : t ≠ "") : s ++ t ≠ "" := by
  intro hc
  have hd : s.data ++ t.data = [] := by
    have hdc := congrArg String.data hc
    rwa [String.data_append] at hdc
  exact h (String.ext ((List.append_eq_nil.mp hd).2))

theorem string_append_ne_empty_left (s t : String) (h : s ≠ "") : s ++ t ≠ "" := by
  intro hc
  have hd : s.data ++ t.data = [] := by
    have hdc := congrArg String.data hc
    rwa [String.data_append] at hdc
  exact h (String.ext ((List.append_eq_nil.mp hd).1))

theorem pre_addfile (b : String) : ((b ++ "/") ++ "addfile") ++ "/" = b ++ "/addfile/" := by
  rw [String.append_assoc, String.append_assoc]
  rfl

theorem c8_key_ok (x : String) : ((x ++ ("] ")) ++ ok_token) ++ (" - ") = x ++ ("] ok - ") := by
  rw [String.append_assoc, String.append_assoc]
  rfl

theorem c8_key_not_ok (x : String) :
    ((x ++ ("] ")) ++ not_ok_token) ++ (" - ") = x ++ ("] not ok - ") := by
  rw [String.append_assoc, String.append_assoc]
  rfl

theorem fsHas_iff (fs : List String) (p : String) : fsHas fs p = true ↔ p ∈ fs := by
  simp [fsHas]

theorem mem_fsRemove (fs : List String) (p x : String) :
    x ∈ fsRemove fs p ↔ x ∈ fs ∧ x ≠ p := by
  simp [fsRemove]

theorem mem_fsAdd (fs : List String) (p x : String) :
    x ∈ fsAdd fs p ↔ x = p ∨ (x ∈ fs ∧ x ≠ p) := by
  simp [fsAdd, mem_fsRemove]

theorem foldl_preserve_fs {α : Type} (f : St → α → St) (hf : ∀ s p, (f s p).fs = s.fs)
    (l : List α) (st : St) : (l.foldl f st).fs = st.fs := by
  induction l generalizing st with
  | nil => rfl
  | cons a t ih => rw [List.foldl_cons, ih, hf]

theorem foldl_preserve_logpath {α : Type} (f : St → α → St)
    (hf : ∀ s p, (f s p).logpath = s.logpath) (l : List α) (st : St) :
    (l.foldl f st).logpath = st.logpath := by
  induction l generalizing st with
  | nil => rfl
  | cons a t ih => rw [List.foldl_cons, ih, hf]

theorem foldl_evs_ext {α : Type} (f : St → α → St)
    (hf : ∀ s p, ∃ δ, (f s p).evs = s.evs ++ δ) (l : List α) (st : St) :
    ∃ δ, (l.foldl f st).evs = st.evs ++ δ := by
  induction l generalizing st with
  | nil => exact ⟨[], by simp⟩
  | cons a t ih =>
    obtain ⟨δ₁, h₁⟩ := hf st a
    obtain ⟨δ₂, h₂⟩ := ih (f st a)
    exact ⟨δ₁ ++ δ₂, by rw [List.foldl_cons, h₂, h₁, List.append_assoc]⟩

/-- Behaviour of the cleanup loop of stage_files under the feasibility
conditions satisfied after a batch relocation: all scratch and destination
paths distinct, every non-symlink destination present, its scratch path
absent, and the move back landing.  The loop then succeeds, only appends to
the trace, moves every non-symlink destination back to its scratch path and
touches nothing else. -/
theorem cleanup_moves_spec (env : Env) :
    ∀ (nf : List (String × String)) (st : St),
    (nf.map Prod.fst ++ nf.map Prod.snd).Nodup →
    (∀ p ∈ nf, env.isLink p.2 = false →
      p.2 ∈ st.fs ∧ p.1 ∉ st.fs ∧ env.moveOk p.2 p.1 = true) →
    ∃ st₂, cleanup_moves env st nf = (st₂, Except.ok ()) ∧
      st₂.logpath = st.logpath ∧
      (∃ δ, st₂.evs = st.evs ++ δ) ∧
      (∀ x, x ∉ nf.map Prod.fst → x ∉ nf.map Prod.snd → (x ∈ st₂.fs ↔ x ∈ st.fs)) ∧
      (∀ p ∈ nf, env.isLink p.2 = false → p.1 ∈ st₂.fs ∧ p.2 ∉ st₂.fs) := by
  intro nf
  induction nf with
  | nil =>
    intro st _ _
    exact ⟨st, rfl, rfl, ⟨[], by simp⟩, fun x _ _ => Iff.rfl, by simp⟩
  | cons hd rest ih =>
    obtain ⟨t, d⟩ := hd
    intro st hnd hfeas
    simp only [List.map_cons, List.cons_append, List.nodup_cons] at hnd
    obtain ⟨ht, hnd₂⟩ := hnd
    simp only [List.mem_append, List.mem_cons, not_or] at ht
    obtain ⟨htA, htd, htB⟩ := ht
    obtain ⟨hA, hdB, hdisj⟩ := List.nodup_append.mp hnd₂
    rw [List.nodup_cons] at hdB
    obtain ⟨hdB₀, hB⟩ := hdB
    have hdA : d ∉ rest.map Prod.fst := fun hdA => hdisj hdA (List.mem_cons_self d _)
    have htail : (rest.map Prod.fst ++ rest.map Prod.snd).Nodup :=
      List.nodup_append.mpr ⟨hA, hB, fun a ha hb => hdisj ha (List.mem_cons_of_mem d hb)⟩
    by_cases hl : env.isLink d = true
    · -- symlink destination: logged and skipped
      have hred : cleanup_moves env st ((t, d) :: rest) =
          cleanup_moves env (logNotOk st ("| link (not moving) " ++ d)) rest := by
        simp [cleanup_moves, hl]
      obtain ⟨st₂, hcm, hlp, ⟨δ, hδ⟩, hframe, hpairs⟩ :=
        ih (logNotOk st ("| link (not moving) " ++ d)) htail
          (fun p hp hpl => hfeas p (List.mem_cons_of_mem _ hp) hpl)
      refine ⟨st₂, hred.trans hcm, hlp, ⟨Ev.log false ("| link (not moving) " ++ d) :: δ, ?_⟩,
        ?_, ?_⟩
      · rw [hδ]; simp [logNotOk, emit]
      · intro x hx1 hx2
        simp only [List.map_cons, List.mem_cons, not_or] at hx1 hx2
        exact hframe x hx1.2 hx2.2
      · intro p hp hpl
        rcases List.mem_cons.mp hp with hp | hp
        · subst hp; exact absurd hpl (by simp [hl])
        · exact hpairs p hp hpl
    · -- regular destination: moved back, then the rest
      rw [Bool.not_eq_true] at hl
      obtain ⟨hd_in, ht_out, hmv⟩ := hfeas (t, d) (List.mem_cons_self _ _) hl
      have hd_in' : d ∈ st.fs := hd_in
      have ht_out' : t ∉ st.fs := ht_out
      have hmv' : env.moveOk d t = true := hmv
      have hred : cleanup_moves env st ((t, d) :: rest) =
          cleanup_moves env
            { fs := fsAdd (fsRemove st.fs d) t,
              evs := st.evs ++ [Ev.log false ("| mv " ++ d ++ " " ++ t), Ev.moveEv d t],
              logpath := st.logpath } rest := by
        simp [cleanup_moves, hl, shutil_move, logNotOk, emit, hd_in', hmv', fsHas]
      set st₁ : St :=
        { fs := fsAdd (fsRemove st.fs d) t,
          evs := st.evs ++ [Ev.log false ("| mv " ++ d ++ " " ++ t), Ev.moveEv d t],
          logpath := st.logpath } with hst₁
      have hfeas₁ : ∀ p ∈ rest, env.isLink p.2 = false →
          p.2 ∈ st₁.fs ∧ p.1 ∉ st₁.fs ∧ env.moveOk p.2 p.1 = true := by
        intro p hp hpl
        obtain ⟨h2, h1, h3⟩ := hfeas p (List.mem_cons_of_mem _ hp) hpl
        have hp2B : p.2 ∈ rest.map Prod.snd := List.mem_map_of_mem Prod.snd hp
        have hp1A : p.1 ∈ rest.map Prod.fst := List.mem_map_of_mem Prod.fst hp
        refine ⟨?_, ?_, h3⟩
        · rw [hst₁]
          simp only [mem_fsAdd, mem_fsRemove]
          exact Or.inr ⟨⟨h2, fun he => hdB₀ (he ▸ hp2B)⟩, fun he => htB (he ▸ hp2B)⟩
        · rw [hst₁]
          simp only [mem_fsAdd, mem_fsRemove]
          rintro (he | ⟨⟨hin', _⟩, _⟩)
          · exact htA (he ▸ hp1A)
          · exact h1 hin'
      obtain ⟨st₂, hcm, hlp, ⟨δ, hδ⟩, hframe, hpairs⟩ := ih st₁ htail hfeas₁
      refine ⟨st₂, hred.trans hcm, by rw [hlp], ?_, ?_, ?_⟩
      · exact ⟨Ev.log false ("| mv " ++ d ++ " " ++ t) :: Ev.moveEv d t :: δ, by
          rw [hδ]; simp⟩
      · intro x hx1 hx2
        simp only [List.map_cons, List.mem_cons, not_or] at hx1 hx2
        refine (hframe x hx1.2 hx2.2).trans ?_
        rw [hst₁]
        simp only [mem_fsAdd, mem_fsRemove]
        constructor
        · rintro (he | ⟨⟨hin', _⟩, _⟩)
          · exact absurd he hx1.1
          · exact hin'
        · intro hin'
          exact Or.inr ⟨⟨hin', hx2.1⟩, hx1.1⟩
      · intro p hp hpl
        rcases List.mem_cons.mp hp with hp | hp
        · subst hp
          constructor
          · show t ∈ st₂.fs
            rw [hframe t htA htB, hst₁]
            simp [mem_fsAdd]
          · show d ∉ st₂.fs
            rw [hframe d hdA hdB₀, hst₁]
            simp only [mem_fsAdd, mem_fsRemove]
            rintro (he | ⟨⟨_, hne⟩, _⟩)
            · exact htd he.symm
            · exact hne rfl
        · exact hpairs p hp hpl

/-- C8, counterexample: the status token the logger passes to entry for a
failure is the literal not ok with a space, not the claimed literal with a
hyphen, so the line written for a failed step is not of the claimed form. -/
theorem c8_status_token_not_hyphenated :
    not_ok_token ≠ "not-ok" ∧ not_ok_token ≠ "ok" ∧
    not_ok_line "2024-01-01T00:00:00" "msg" = "[2024-01-01T00:00:00] not ok - msg\n" ∧
    not_ok_line "2024-01-01T00:00:00" "msg" ≠ "[2024-01-01T00:00:00] not-ok - msg\n" := by
  refine ⟨by decide, by decide, by decide, by decide⟩

/-- C8 (amended): every audit entry is one appended line of the exact form
bracketed ISO timestamp, status token, space dash space, message, newline,
where the status token is the literal ok or the literal not ok (written
with a space, not a hyphen); and the journal of a logger built from an
aggregate identifier lies at logRoot slash addfile slash collectionId slash
aggregateId dot log. -/
theorem c8_log_format_and_location (ts msg baseDir cid oid : String)
    (h1 : baseDir ≠ "") :
    ok_line ts msg = ("[" ++ ts ++ "] ok - ") ++ msg ++ "\n" ∧
    not_ok_line ts msg = ("[" ++ ts ++ "] not ok - ") ++ msg ++ "\n" ∧
    log_path baseDir cid oid =
      baseDir ++ "/addfile/" ++ cid ++ "/" ++ (oid ++ ".log") := by
  refine ⟨?_, ?_, ?_⟩
  · show ((((("[" ++ ts) ++ ("] ")) ++ ok_token) ++ (" - ")) ++ msg) ++ "\n" = _
    rw [c8_key_ok]
  · show ((((("[" ++ ts) ++ ("] ")) ++ not_ok_token) ++ (" - ")) ++ msg) ++ "\n" = _
    rw [c8_key_not_ok]
  · have h2 : baseDir ++ "/" ++ "addfile" ≠ "" :=
      string_append_ne_empty _ _ (by decide)
    have h3 : baseDir ++ "/" ++ "addfile" ++ "/" ++ cid ≠ "" :=
      string_append_ne_empty_left _ _ (string_append_ne_empty _ _ (by decide))
    rw [log_path]
    rw [show pathJoin baseDir ("addfile") = baseDir ++ "/" ++ "addfile" from by
      rw [pathJoin, if_neg h1]]
    rw [show pathJoin (baseDir ++ "/" ++ "addfile") cid =
        baseDir ++ "/" ++ "addfile" ++ "/" ++ cid from by
      rw [pathJoin, if_neg h2]]
    rw [show pathJoin (baseDir ++ "/" ++ "addfile" ++ "/" ++ cid) (oid ++ ".log") =
        baseDir ++ "/" ++ "addfile" ++ "/" ++ cid ++ "/" ++ (oid ++ ".log") from by
      rw [pathJoin, if_neg h3]]
    rw [pre_addfile]

/-- C8 witness. -/
theorem c8_log_format_and_location_witness :
    ok_line "T" "m" = ("[" ++ "T" ++ "] ok - ") ++ "m" ++ "\n" ∧
    not_ok_line "T" "m" = ("[" ++ "T" ++ "] not ok - ") ++ "m" ++ "\n" ∧
    log_path "/log" "ddr-test-1" "ddr-test-1-2" =
      "/log" ++ "/addfile/" ++ "ddr-test-1" ++ "/" ++ ("ddr-test-1-2" ++ ".log") :=
  c8_log_format_and_location "T" "m" "/log" "ddr-test-1" "ddr-test-1-2" (by decide)

/-- C1: the rollback of a failed batch relocation is broken.  With two
pairs and a failure injected at the second move, the batch records the
failure; move_new_files_back then calls move_files on the original pair
list (the reversed list it computes is dead), which raises because the
first scratch path was already consumed, and the finally clause crashes.
Afterwards the first artifact is still present at its destination and
absent from its scratch path, contradicting both the comments in
move_new_files_back and the all-or-nothing claim. -/
theorem c1_relocation_rollback_bug :
    (move_files envC1 { fs := ["t1", "t2"], evs := [], logpath := "/log" }
        [("t1", "d1"), ("t2", "d2")]).2 = Except.ok ["t2"] ∧
    (let r1 := move_files envC1 { fs := ["t1", "t2"], evs := [], logpath := "/log" }
        [("t1", "d1"), ("t2", "d2")]
     let r2 := move_new_files_back envC1 r1.1 [("t1", "d1"), ("t2", "d2")] ["t2"]
     r2.2 = Err.exception ("Bailing out. We are done here.") ∧
     "d1" ∈ r2.1.fs ∧ "t1" ∉ r2.1.fs ∧ "t2" ∈ r2.1.fs ∧ "d2" ∉ r2.1.fs) := by
  refine ⟨by decide, by decide, by decide, by decide, by decide, by decide⟩

/-- C5: whenever the store reports a non-empty modified set, add_file_commit
never commits, regardless of the staged set, and raises an Exception whose
message lists the modified paths; the trace holds no commit event. -/
theorem c5_commit_gate (entity : Entity) (fPathAbs agent : String)
    (staged modified : List String) (sha lp : String) (fs : List String)
    (h : modified ≠ []) :
    (add_file_commit entity fPathAbs agent staged modified sha
      { fs := fs, evs := [], logpath := lp }).2 =
      Except.error (Err.exception ("Could not commit bc " ++
        toString modified.length ++ " unstaged files: " ++ pyListRepr modified)) ∧
    Ev.commitEv ∉ (add_file_commit entity fPathAbs agent staged modified sha
      { fs := fs, evs := [], logpath := lp }).1.evs ∧
    Ev.log false ("modified " ++ pyListRepr modified) ∈
      (add_file_commit entity fPathAbs agent staged modified sha
        { fs := fs, evs := [], logpath := lp }).1.evs := by
  have hm : modified.isEmpty = false := by
    cases modified with
    | nil => exact absurd rfl h
    | cons a l => rfl
  simp [add_file_commit, hm, logOk, logNotOk, emit]

/-- C5 witness. -/
theorem c5_commit_gate_witness :
    (add_file_commit entityC "/repo/files/x.jpg" "" ["s"] ["mod.json"] "deadbeef"
      { fs := [], evs := [], logpath := "/log" }).2 =
      Except.error (Err.exception ("Could not commit bc " ++
        toString (["mod.json"] : List String).length ++ " unstaged files: " ++
        pyListRepr ["mod.json"])) ∧
    Ev.commitEv ∉ (add_file_commit entityC "/repo/files/x.jpg" "" ["s"] ["mod.json"]
      "deadbeef" { fs := [], evs := [], logpath := "/log" }).1.evs ∧
    Ev.log false ("modified " ++ pyListRepr ["mod.json"]) ∈
      (add_file_commit entityC "/repo/files/x.jpg" "" ["s"] ["mod.json"] "deadbeef"
        { fs := [], evs := [], logpath := "/log" }).1.evs :=
  c5_commit_gate entityC "/repo/files/x.jpg" "" ["s"] ["mod.json"] "deadbeef" "/log" []
    (by decide)

/-- C10: add_file_commit commits exactly when the staged set is non-empty
and the modified set is empty; with both sets empty it raises instead of
returning successfully. -/
theorem c10_commit_strictness (entity : Entity) (fPathAbs agent : String)
    (staged modified : List String) (sha lp : String) (fs : List String) :
    (Ev.commitEv ∈ (add_file_commit entity fPathAbs agent staged modified sha
      { fs := fs, evs := [], logpath := lp }).1.evs ↔ (staged ≠ [] ∧ modified = [])) ∧
    (staged = [] → modified = [] →
      (add_file_commit entity fPathAbs agent staged modified sha
        { fs := fs, evs := [], logpath := lp }).2 =
      Except.error (Err.exception ("Could not commit bc " ++
        toString modified.length ++ " unstaged files: " ++ pyListRepr modified))) := by
  cases staged with
  | nil => simp [add_file_commit, logOk, logNotOk, emit]
  | cons a l =>
    cases modified with
    | nil => simp [add_file_commit, logOk, logNotOk, emit]
    | cons b m => simp [add_file_commit, logOk, logNotOk, emit]

/-- C10 witness. -/
theorem c10_commit_strictness_witness :
    (Ev.commitEv ∈ (add_file_commit entityC "/repo/files/x.jpg" "" [] [] "deadbeef"
      { fs := [], evs := [], logpath := "/log" }).1.evs ↔
      (([] : List String) ≠ [] ∧ ([] : List String) = [])) ∧
    (([] : List String) = [] → ([] : List String) = [] →
      (add_file_commit entityC "/repo/files/x.jpg" "" [] [] "deadbeef"
        { fs := [], evs := [], logpath := "/log" }).2 =
      Except.error (Err.exception ("Could not commit bc " ++
        toString ([] : List String).length ++ " unstaged files: " ++ pyListRepr []))) :=
  c10_commit_strictness entityC "/repo/files/x.jpg" "" [] [] "deadbeef" "/log" []

/-- C9 (amended): the restore path of add_access never moves the metadata
file back.  The sole call site passes three arguments to the two parameter
move_existing_files_back, so the invocation raises TypeError at the call,
before the function body runs and before any move, leaving the filesystem
unchanged; the body itself, were it entered, would raise NameError before
any move, because the names tmp_entity_json and entity it reads first do
not resolve in its scope. -/
theorem c9_restore_never_moves :
    move_existing_files_back_arity ≠ add_access_mefb_call_args.length ∧
    (mefb_resolves ("tmp_entity_json") = false ∧ mefb_resolves ("entity") = false) ∧
    (∀ st files, move_existing_files_back st files = (st, Except.error Err.nameError)) ∧
    (∀ (env : Env) (tmpFileJson jsonPath lp : String) (fs : List String),
      fsHas fs tmpFileJson = true → env.moveOk tmpFileJson jsonPath = false →
      fsHas fs jsonPath = false →
      (add_access_move_json env tmpFileJson jsonPath
        { fs := fs, evs := [], logpath := lp }).2 = Except.error Err.typeError ∧
      (add_access_move_json env tmpFileJson jsonPath
        { fs := fs, evs := [], logpath := lp }).1.fs = fs) := by
  refine ⟨by decide, ⟨by decide, by decide⟩, fun st files => rfl, ?_⟩
  intro env tmpFileJson jsonPath lp fs h1 h2 h3
  simp [add_access_move_json, move_files, shutil_move, move_existing_files_back,
    add_access_mefb_call_args, move_existing_files_back_arity,
    move_existing_files_back_locals, logOk, logNotOk, emit, h1, h2, h3]

/-- C9 witness. -/
theorem c9_restore_never_moves_witness :
    move_existing_files_back_arity ≠ add_access_mefb_call_args.length ∧
    (move_existing_files_back { fs := [], evs := [], logpath := "/log" } [] =
      ({ fs := [], evs := [], logpath := "/log" }, Except.error Err.nameError)) ∧
    ((add_access_move_json envNoMove ("t.json") ("/repo/f.json")
        { fs := ["t.json"], evs := [], logpath := "/log" }).2 =
      Except.error Err.typeError ∧
     (add_access_move_json envNoMove ("t.json") ("/repo/f.json")
        { fs := ["t.json"], evs := [], logpath := "/log" }).1.fs = ["t.json"]) := by
  have h := c9_restore_never_moves
  exact ⟨h.1, h.2.2.1 _ _,
    h.2.2.2 envNoMove ("t.json") ("/repo/f.json") ("/log") ["t.json"] (by decide)
      (by decide) (by decide)⟩

/-- C9 counterexample to the original claim: in the failing restore run the
fragment ends in TypeError, not NameError: the call site hands three
arguments to the two parameter function, so the body whose unresolvable
names would raise NameError is never entered. -/
theorem c9_not_name_error :
    (add_access_move_json envNoMove ("t.json") ("/repo/f.json")
        { fs := ["t.json"], evs := [], logpath := "/log" }).2 =
      Except.error Err.typeError ∧
    (add_access_move_json envNoMove ("t.json") ("/repo/f.json")
        { fs := ["t.json"], evs := [], logpath := "/log" }).2 ≠
      Except.error Err.nameError := by
  refine ⟨?_, ?_⟩ <;> decide

theorem predict_staged_mem (already planned : List String) (x : String) :
    x ∈ predict_staged already planned ↔ x ∈ already ∨ x ∈ planned := by
  by_cases h : x ∈ already <;> simp [predict_staged, h]

theorem stage_show_fs (staged : List String) (shS : Bool) (st : St) :
    (stage_show staged shS st).fs = st.fs := by
  cases shS
  · rfl
  · exact (foldl_preserve_fs (fun s p => logOk s ("|   " ++ p)) (fun _ _ => rfl)
      staged _).trans rfl

theorem stage_show_logpath (staged : List String) (shS : Bool) (st : St) :
    (stage_show staged shS st).logpath = st.logpath := by
  cases shS
  · rfl
  · exact (foldl_preserve_logpath (fun s p => logOk s ("|   " ++ p)) (fun _ _ => rfl)
      staged _).trans rfl

theorem stage_finally_match (env : Env) (st : St) (repo : String)
    (staged sN sA sP : List String) (nf : List (String × String)) (shS : Bool)
    (hlen : staged.length = sP.length) :
    (stage_finally env st repo staged sN sA sP nf shS).2 = Except.ok repo := by
  have hb : (staged.length == sP.length) = true := by simp [hlen]
  simp [stage_finally, hb]

theorem stage_finally_mismatch_err (env : Env) (st : St) (repo : String)
    (staged sN sA sP : List String) (nf : List (String × String)) (shS : Bool)
    (hlen : staged.length ≠ sP.length) :
    ∀ r, (stage_finally env st repo staged sN sA sP nf shS).2 ≠ Except.ok r := by
  intro r
  have hb : (staged.length == sP.length) = false := by simp [hlen]
  simp only [stage_finally, hb, Bool.false_eq_true, if_false]
  rcases hcm : cleanup_moves env
      (logNotOk (logNotOk (stage_show staged shS st)
        (toString staged.length ++ " new files staged (should be " ++
          toString sP.length ++ ")"))
        ("File staging aborted. Cleaning up")) nf with ⟨st₂, rc⟩
  cases rc <;> simp [crashE]

theorem stage_finally_mismatch (env : Env) (st : St) (repo : String)
    (staged sN sA sP : List String) (nf : List (String × String)) (shS : Bool)
    (lp : String) (fs0 : List String)
    (hlp : st.logpath = lp) (hfs : st.fs = fs0)
    (hlen : staged.length ≠ sP.length)
    (hnd : (nf.map Prod.fst ++ nf.map Prod.snd).Nodup)
    (hfeas : ∀ p ∈ nf, env.isLink p.2 = false →
      p.2 ∈ fs0 ∧ p.1 ∉ fs0 ∧ env.moveOk p.2 p.1 = true) :
    (stage_finally env st repo staged sN sA sP nf shS).2 =
      Except.error (Err.exception
        ("Add file aborted, see log file for details: " ++ lp)) ∧
    (∀ p ∈ nf, env.isLink p.2 = false →
      p.1 ∈ (stage_finally env st repo staged sN sA sP nf shS).1.fs ∧
      p.2 ∉ (stage_finally env st repo staged sN sA sP nf shS).1.fs) ∧
    Ev.log false (toString staged.length ++ " new files staged (should be " ++
      toString sP.length ++ ")") ∈
      (stage_finally env st repo staged sN sA sP nf shS).1.evs := by
  have hb : (staged.length == sP.length) = false := by simp [hlen]
  obtain ⟨st₂, hcm, hlp₀, ⟨δ, hδ⟩, hframe, hpairs⟩ :=
    cleanup_moves_spec env nf
      (logNotOk (logNotOk (stage_show staged shS st)
        (toString staged.length ++ " new files staged (should be " ++
          toString sP.length ++ ")"))
        ("File staging aborted. Cleaning up")) hnd
      (by
        intro p hp hpl
        have h := hfeas p hp hpl
        simpa [logNotOk, emit, stage_show_fs, hfs] using h)
  simp only [stage_finally, hb, Bool.false_eq_true, if_false]
  rw [hcm]
  have hlp₂ : st₂.logpath = lp := by
    rw [hlp₀]
    simp [logNotOk, emit, stage_show_logpath, hlp]
  refine ⟨?_, ?_, ?_⟩
  · simp [crashE, logNotOk, emit, hlp₂]
  · intro p hp hpl
    have h := hpairs p hp hpl
    simpa [crashE, logNotOk, emit] using h
  · simp only [crashE, logNotOk, emit]
    rw [hδ]
    simp [logNotOk, emit]

/-- C4: the prediction of predict_staged is, as a set, the union of the
already staged paths and the planned paths; with the staged snapshot taken,
stage_files succeeds exactly when the snapshot size equals the predicted
size; and on a mismatch (under the feasibility conditions of the cleanup:
distinct paths, non-symlink destinations present with their scratch paths
free and the moves back landing) it logs the mismatch, moves every
destination that is not a symlink back to its scratch path, and aborts with
the fatal staging error naming the log file. -/
theorem c4_staging_verification (env : Env) (entity : Entity)
    (gitFiles annexFiles : List String) (newFiles : List (String × String))
    (shS : Bool) (fs : List String) (lp : String) (S1 : List String) :
    (∀ (already planned : List String) (x : String),
      x ∈ predict_staged already planned ↔ x ∈ already ∨ x ∈ planned) ∧
    (env.stageResult = some S1 →
      ((stage_files env entity gitFiles annexFiles newFiles shS
          { fs := fs, evs := [], logpath := lp }).2 = Except.ok entity.collectionPath ↔
        S1.length = (predict_staged env.listStaged0 (gitFiles ++ annexFiles)).length)) ∧
    (env.stageResult = some S1 →
      S1.length ≠ (predict_staged env.listStaged0 (gitFiles ++ annexFiles)).length →
      (newFiles.map Prod.fst ++ newFiles.map Prod.snd).Nodup →
      (∀ p ∈ newFiles, env.isLink p.2 = false →
        p.2 ∈ fs ∧ p.1 ∉ fs ∧ env.moveOk p.2 p.1 = true) →
      (stage_files env entity gitFiles annexFiles newFiles shS
          { fs := fs, evs := [], logpath := lp }).2 =
        Except.error (Err.exception
          ("Add file aborted, see log file for details: " ++ lp)) ∧
      (∀ p ∈ newFiles, env.isLink p.2 = false →
        p.1 ∈ (stage_files env entity gitFiles annexFiles newFiles shS
          { fs := fs, evs := [], logpath := lp }).1.fs ∧
        p.2 ∉ (stage_files env entity gitFiles annexFiles newFiles shS
          { fs := fs, evs := [], logpath := lp }).1.fs) ∧
      Ev.log false (toString S1.length ++ " new files staged (should be " ++
        toString (predict_staged env.listStaged0 (gitFiles ++ annexFiles)).length ++ ")")
        ∈ (stage_files env entity gitFiles annexFiles newFiles shS
          { fs := fs, evs := [], logpath := lp }).1.evs) := by
  refine ⟨predict_staged_mem, ?_, ?_⟩
  · intro hres
    simp only [stage_files, hres]
    by_cases hlen : S1.length =
        (predict_staged env.listStaged0 (gitFiles ++ annexFiles)).length
    · rw [stage_finally_match env _ _ _ _ _ _ _ _ hlen]
      simp [hlen]
    · exact iff_of_false (fun hok =>
        stage_finally_mismatch_err env _ _ _ _ _ _ _ _ hlen _ hok) hlen
  · intro hres hlen hnd hfeas
    simp only [stage_files, hres]
    exact stage_finally_mismatch env _ _ _ _ _ _ _ _ lp fs
      (by exact (foldl_preserve_logpath (fun s p => logOk s ("|   " ++ p))
        (fun _ _ => rfl) (gitFiles ++ annexFiles) _).trans rfl)
      (by exact (foldl_preserve_fs (fun s p => logOk s ("|   " ++ p))
        (fun _ _ => rfl) (gitFiles ++ annexFiles) _).trans rfl)
      hlen hnd hfeas

/-- C4 witness, exercising the mismatch branch. -/
theorem c4_staging_verification_witness :
    (stage_files envC4 entityC ["g"] [] [("t", "d")] false
        { fs := ["d"], evs := [], logpath := "/log" }).2 =
      Except.error (Err.exception
        ("Add file aborted, see log file for details: " ++ "/log")) ∧
    ("t" ∈ (stage_files envC4 entityC ["g"] [] [("t", "d")] false
        { fs := ["d"], evs := [], logpath := "/log" }).1.fs ∧
     "d" ∉ (stage_files envC4 entityC ["g"] [] [("t", "d")] false
        { fs := ["d"], evs := [], logpath := "/log" }).1.fs) := by
  have h := (c4_staging_verification envC4 entityC ["g"] [] [("t", "d")] false ["d"]
    "/log" ["a", "b"]).2.2 rfl (by decide) (by decide) (by decide)
  exact ⟨h.1, h.2.1 ("t", "d") (by decide) (by decide)⟩

theorem extends_of_evs {p : Ev → Bool} {x y : St} (δ : List Ev)
    (h : y.evs = x.evs ++ δ) (ha : δ.all p = true) : Extends p x y := ⟨δ, h, ha⟩

theorem extends_refl (p : Ev → Bool) (st : St) : Extends p st st :=
  ⟨[], by simp, rfl⟩

theorem extends_trans {p : Ev → Bool} {x y z : St} (h1 : Extends p x y)
    (h2 : Extends p y z) : Extends p x z := by
  obtain ⟨δ₁, e1, a1⟩ := h1
  obtain ⟨δ₂, e2, a2⟩ := h2
  exact ⟨δ₁ ++ δ₂, by rw [e2, e1, List.append_assoc], by simp_all⟩

theorem extends_emit {p : Ev → Bool} {x : St} {e : Ev} (he : p e = true) :
    Extends p x (emit x e) := ⟨[e], rfl, by simp [he]⟩

theorem extends_logOk {p : Ev → Bool} {x : St} (h : ∀ b m, p (Ev.log b m) = true)
    (m : String) : Extends p x (logOk x m) := ⟨[Ev.log true m], rfl, by simp [h]⟩

theorem extends_logNotOk {p : Ev → Bool} {x : St} (h : ∀ b m, p (Ev.log b m) = true)
    (m : String) : Extends p x (logNotOk x m) := ⟨[Ev.log false m], rfl, by simp [h]⟩

theorem extends_stAddFile (p : Ev → Bool) (x : St) (q : String) :
    Extends p x (stAddFile x q) := ⟨[], by simp [stAddFile], rfl⟩

theorem foldl_extends {α : Type} {p : Ev → Bool} (f : St → α → St)
    (hf : ∀ s a, Extends p s (f s a)) (l : List α) (st : St) :
    Extends p st (l.foldl f st) := by
  induction l generalizing st with
  | nil => exact extends_refl p st
  | cons a t ih => exact extends_trans (hf st a) (ih (f st a))

theorem check_dir_extends (p : Ev → Bool) (hlog : ∀ b m, p (Ev.log b m) = true)
    (hmk : ∀ q, p (Ev.mkdirDir q) = true)
    (env : Env) (label path : String) (mkdir : Bool) (st : St) :
    Extends p st (check_dir env label path mkdir st).1 := by
  unfold check_dir crashE
  cases hm : mkdir <;> cases hd : env.dirExists path <;> cases ha : env.access path <;>
    simp only [hm, hd, ha, Bool.and_false, Bool.and_true, Bool.true_and, Bool.false_and,
      Bool.not_true, Bool.not_false, Bool.or_false, Bool.or_true, Bool.false_or,
      Bool.true_or, if_true, if_false, Bool.true_eq_false, Bool.false_eq_true] <;>
    exact extends_of_evs _ (by simp [logOk, logNotOk, emit, List.append_assoc]; try rfl)
      (by simp [hlog, hmk])

theorem checksums_extends (p : Ev → Bool) (hlog : ∀ b m, p (Ev.log b m) = true)
    (hcs : ∀ a, p (Ev.checksum a) = true) (env : Env) (srcPath : String) (st : St) :
    Extends p st (checksums env srcPath st).1 := by
  unfold checksums crashE
  dsimp only
  split <;>
    exact extends_of_evs _ (by simp [logOk, logNotOk, emit, List.append_assoc]; try rfl)
      (by simp [hlog, hcs])

theorem shutil_move_extends (p : Ev → Bool) (hmv : ∀ a b, p (Ev.moveEv a b) = true)
    (env : Env) (st : St) (src dest : String) :
    Extends p st (shutil_move env st src dest).1 := by
  unfold shutil_move
  dsimp only
  split
  · split <;>
      exact extends_of_evs [Ev.moveEv src dest] (by simp [emit]) (by simp [hmv])
  · exact extends_of_evs [Ev.moveEv src dest] (by simp [emit]) (by simp [hmv])

theorem move_files_extends (p : Ev → Bool) (hlog : ∀ b m, p (Ev.log b m) = true)
    (hmv : ∀ a b, p (Ev.moveEv a b) = true) (env : Env) :
    ∀ (files : List (String × String)) (st : St),
      Extends p st (move_files env st files).1 := by
  intro files
  induction files with
  | nil => intro st; exact extends_refl p st
  | cons hd rest ih =>
    obtain ⟨t, d⟩ := hd
    intro st
    unfold move_files
    dsimp only
    rcases hsm : shutil_move env (logOk st ("| mv " ++ t ++ " " ++ d)) t d with ⟨st₂, r⟩
    have hext : Extends p st st₂ := by
      have h1 := shutil_move_extends p hmv env (logOk st ("| mv " ++ t ++ " " ++ d)) t d
      rw [hsm] at h1
      exact extends_trans (extends_logOk hlog _) h1
    cases r with
    | error e => exact hext
    | ok u =>
      dsimp only
      split
      · exact extends_trans hext (extends_logNotOk hlog _)
      · exact extends_trans hext (ih st₂)

theorem mnfb_finally_extends (p : Ev → Bool) (hlog : ∀ b m, p (Ev.log b m) = true)
    (st : St) (fails : List String) :
    Extends p st (mnfb_finally st fails).1 := by
  unfold mnfb_finally
  dsimp only
  refine extends_trans ?_ (extends_logNotOk hlog _)
  refine extends_trans (extends_logNotOk hlog
    ("Failed to place one or more files to destination repo")) ?_
  exact foldl_extends _ (fun s a => extends_logNotOk hlog _) fails _

theorem move_new_files_back_extends (p : Ev → Bool) (hlog : ∀ b m, p (Ev.log b m) = true)
    (hmv : ∀ a b, p (Ev.moveEv a b) = true) (env : Env) (st : St)
    (files : List (String × String)) (failures : List String) :
    Extends p st (move_new_files_back env st files failures).1 := by
  unfold move_new_files_back
  dsimp only
  rcases hmf : move_files env
      (logNotOk (logNotOk st (toString failures.length ++ " failures: " ++
        pyListRepr failures)) ("Moving new files back to tmp_dir")) files with ⟨st₂, r⟩
  have hext : Extends p st st₂ := by
    have h1 := move_files_extends p hlog hmv env files
      (logNotOk (logNotOk st (toString failures.length ++ " failures: " ++
        pyListRepr failures)) ("Moving new files back to tmp_dir"))
    rw [hmf] at h1
    exact extends_trans (extends_trans (extends_logNotOk hlog _) (extends_logNotOk hlog _)) h1
  cases r with
  | error e =>
    exact extends_trans (extends_trans hext (extends_logNotOk hlog _))
      (mnfb_finally_extends p hlog _ _)
  | ok fails => exact extends_trans hext (mnfb_finally_extends p hlog _ _)

theorem copy_rename_extends (p : Ev → Bool) (hlog : ∀ b m, p (Ev.log b m) = true)
    (hmv : ∀ a b, p (Ev.moveEv a b) = true)
    (env : Env) (tmpPath tmpPathRenamed : String) (st : St) :
    Extends p st (copy_rename env tmpPath tmpPathRenamed st).1 := by
  unfold copy_rename crashE
  rcases hsm : shutil_move env st tmpPath tmpPathRenamed with ⟨st₂, r⟩
  have hext : Extends p st st₂ := by
    have h1 := shutil_move_extends p hmv env st tmpPath tmpPathRenamed
    rw [hsm] at h1
    exact h1
  cases r with
  | error e => exact hext
  | ok u =>
    dsimp only
    split
    · exact extends_trans hext (extends_logNotOk hlog _)
    · exact hext

theorem copy_to_workdir_extends (p : Ev → Bool) (hlog : ∀ b m, p (Ev.log b m) = true)
    (hcp : ∀ a b, p (Ev.copyFile a b) = true) (hmv : ∀ a b, p (Ev.moveEv a b) = true)
    (env : Env) (srcPath tmpPath tmpPathRenamed : String) (st : St) :
    Extends p st (copy_to_workdir env srcPath tmpPath tmpPathRenamed st).1 := by
  unfold copy_to_workdir crashE
  dsimp only
  cases hco : env.copyOk srcPath tmpPath
  · simp only [hco, Bool.false_eq_true, if_false]
    split
    · exact extends_trans (extends_trans (extends_trans (extends_trans
        (extends_logOk hlog _) (extends_emit (hcp _ _))) (extends_logOk hlog _))
        (extends_logOk hlog _)) (copy_rename_extends p hlog hmv env tmpPath tmpPathRenamed _)
    · exact extends_trans (extends_trans (extends_logOk hlog _) (extends_emit (hcp _ _)))
        (extends_logNotOk hlog _)
  · simp only [hco, if_true]
    split
    · exact extends_trans (extends_trans (extends_trans (extends_trans (extends_trans
        (extends_logOk hlog _) (extends_emit (hcp _ _))) (extends_stAddFile p _ tmpPath))
        (extends_logOk hlog _)) (extends_logOk hlog _))
        (copy_rename_extends p hlog hmv env tmpPath tmpPathRenamed _)
    · exact extends_trans (extends_trans (extends_trans (extends_logOk hlog _)
        (extends_emit (hcp _ _))) (extends_stAddFile p _ tmpPath))
        (extends_logNotOk hlog _)

theorem make_access_file_extends (p : Ev → Bool) (hlog : ∀ b m, p (Ev.log b m) = true)
    (hth : ∀ q, p (Ev.thumbWrite q) = true)
    (thumb : Option ThumbData) (accessDestPath : String) (st : St) :
    Extends p st (make_access_file thumb accessDestPath st).1 := by
  unfold make_access_file
  cases thumb with
  | none => exact extends_trans (extends_logOk hlog _) (extends_logNotOk hlog _)
  | some d =>
    cases h1 : d.outExists <;> cases h2 : (d.analysisStdErr != "") <;>
      cases h3 : (d.stdErr != "") <;> cases h4 : (d.outSize == 0) <;>
      cases h5 : d.outIsLink <;>
      simp only [h1, h2, h3, h4, h5, Bool.not_true, Bool.not_false, if_true, if_false,
        Bool.false_eq_true, Bool.true_eq_false] <;>
      exact extends_of_evs _
        (by simp [logOk, logNotOk, emit, stAddFile, List.append_assoc]; try rfl)
        (by simp [hlog, hth])

theorem write_object_metadata_extends (p : Ev → Bool)
    (hlog : ∀ b m, p (Ev.log b m) = true) (hwj : ∀ q, p (Ev.writeJson q) = true)
    (env : Env) (objJsonPath tmpDir : String) (st : St) :
    Extends p st (write_object_metadata env objJsonPath tmpDir st).1 := by
  unfold write_object_metadata crashE
  dsimp only
  cases hw : env.writeTextOk (pathJoin tmpDir (pyBasename objJsonPath)) <;>
    simp only [hw, if_true, if_false, Bool.false_eq_true, Bool.true_eq_false] <;>
    split <;>
    exact extends_of_evs _
      (by simp [logOk, logNotOk, emit, stAddFile, List.append_assoc]; try rfl)
      (by simp [hlog, hwj])

theorem check_dir_false_extends (p : Ev → Bool) (hlog : ∀ b m, p (Ev.log b m) = true)
    (env : Env) (label path : String) (st : St) :
    Extends p st (check_dir env label path false st).1 := by
  unfold check_dir crashE
  cases hd : env.dirExists path <;> cases ha : env.access path <;>
    simp only [hd, ha, Bool.and_false, Bool.and_true, Bool.true_and, Bool.false_and,
      Bool.not_true, Bool.not_false, Bool.or_false, Bool.or_true, Bool.false_or,
      Bool.true_or, if_true, if_false, Bool.true_eq_false, Bool.false_eq_true] <;>
    exact extends_of_evs _ (by simp [logOk, logNotOk, emit, List.append_assoc]; try rfl)
      (by simp [hlog])

theorem alf_validate_extends (p : Ev → Bool) (hlog : ∀ b m, p (Ev.log b m) = true)
    (hcs : ∀ a, p (Ev.checksum a) = true) (hx : p Ev.extractXmp = true)
    (env : Env) (entity : Entity) (srcPath dataRepr : String) (st : St) :
    Extends p st (alf_validate env entity srcPath dataRepr st).1 := by
  unfold alf_validate
  dsimp only
  rcases hcd : check_dir env ("| src_path") srcPath false
      (logOk (logOk (logOk (logOk (logOk st
        ("------------------------------------------------------------------------"))
        ("DDR.models.Entity.add_file: START")) ("entity: " ++ entity.id))
        ("data: " ++ dataRepr)) ("Examining source file")) with ⟨st₁, r₁⟩
  have h1 : Extends p st st₁ := by
    have h := check_dir_false_extends p hlog env ("| src_path") srcPath
      (logOk (logOk (logOk (logOk (logOk st
        ("------------------------------------------------------------------------"))
        ("DDR.models.Entity.add_file: START")) ("entity: " ++ entity.id))
        ("data: " ++ dataRepr)) ("Examining source file"))
    rw [hcd] at h
    exact extends_trans (extends_of_evs _
      (by simp [logOk, emit, List.append_assoc]; try rfl) (by simp [hlog])) h
  cases r₁ with
  | error e => exact h1
  | ok u =>
    dsimp only
    rcases hcs2 : checksums env srcPath
        (logOk st₁ ("| file size " ++ toString env.srcSize)) with ⟨st₂, r₂⟩
    have h2 : Extends p st st₂ := by
      have h := checksums_extends p hlog hcs env srcPath
        (logOk st₁ ("| file size " ++ toString env.srcSize))
      rw [hcs2] at h
      exact extends_trans h1 (extends_trans (extends_logOk hlog _) h)
    cases r₂ with
    | error e => exact h2
    | ok hashes =>
      exact extends_trans h2 (extends_trans (extends_logOk hlog _) (extends_emit hx))

theorem alf_identify_evs (env : Env) (entity : Entity) (srcPath role sha1 : String)
    (st : St) :
    (alf_identify env entity srcPath role sha1 st).1.evs = st.evs ++
      [Ev.log true ("Identifier"),
       Ev.log true ("| idparts role=" ++ role ++ " sha1=" ++ sha1.take 10),
       Ev.deriveId,
       Ev.log true ("| identifier " ++ env.childId role (sha1.take 10))] := by
  simp [alf_identify, logOk, emit]

theorem alf_identify_extends (p : Ev → Bool) (hlog : ∀ b m, p (Ev.log b m) = true)
    (hdid : p Ev.deriveId = true)
    (env : Env) (entity : Entity) (srcPath role sha1 : String) (st : St) :
    Extends p st (alf_identify env entity srcPath role sha1 st).1 :=
  extends_of_evs _ (alf_identify_evs env entity srcPath role sha1 st)
    (by simp [hlog, hdid])

theorem alf_check_extends (p : Ev → Bool) (hlog : ∀ b m, p (Ev.log b m) = true)
    (hdc : p Ev.destCheck = true) (hmk : ∀ q, p (Ev.mkdirDir q) = true)
    (env : Env) (srcPath : String) (paths : AlfPaths) (st : St) :
    Extends p st (alf_check env srcPath paths st).1 := by
  unfold alf_check crashE
  dsimp only
  split
  · exact extends_of_evs _
      (by simp [logOk, logNotOk, emit, List.append_assoc]; try rfl)
      (by simp [hlog, hdc])
  · rcases hc1 : check_dir env ("| tmp_dir") paths.tmpDir true
        (emit (logOk st ("Checking files/dirs")) Ev.destCheck) with ⟨st₁, r₁⟩
    have h1 : Extends p st st₁ := by
      have h := check_dir_extends p hlog hmk env ("| tmp_dir") paths.tmpDir true
        (emit (logOk st ("Checking files/dirs")) Ev.destCheck)
      rw [hc1] at h
      exact extends_trans (extends_trans (extends_logOk hlog _) (extends_emit hdc)) h
    cases r₁ with
    | error e => exact h1
    | ok u =>
      have h := check_dir_extends p hlog hmk env ("| dest_dir") paths.destDir true st₁
      exact extends_trans h1 h

theorem alf_check_evs (env : Env) (srcPath : String) (paths : AlfPaths) (st : St) :
    ∃ δ, (alf_check env srcPath paths st).1.evs =
      st.evs ++ (Ev.log true ("Checking files/dirs") :: Ev.destCheck :: δ) := by
  unfold alf_check crashE
  dsimp only
  split
  · exact ⟨[Ev.log false ("Cant add " ++ pyBasename srcPath ++ ". Already exists: " ++
      paths.fid)], by simp [logOk, logNotOk, emit, List.append_assoc]⟩
  · rcases hc1 : check_dir env ("| tmp_dir") paths.tmpDir true
        (emit (logOk st ("Checking files/dirs")) Ev.destCheck) with ⟨st₁, r₁⟩
    have h1 := check_dir_extends (fun _ => true) (by simp) (by simp)
      env ("| tmp_dir") paths.tmpDir true
      (emit (logOk st ("Checking files/dirs")) Ev.destCheck)
    rw [hc1] at h1
    obtain ⟨δ₁, he₁, -⟩ := h1
    cases r₁ with
    | error e =>
      exact ⟨δ₁, by rw [he₁]; simp [logOk, emit, List.append_assoc]⟩
    | ok u =>
      obtain ⟨δ₂, he₂, -⟩ :=
        check_dir_extends (fun _ => true) (by simp) (by simp)
          env ("| dest_dir") paths.destDir true st₁
      exact ⟨δ₁ ++ δ₂, by
        rw [he₂, he₁]
        simp [logOk, emit, List.append_assoc]⟩

theorem alf_workdir_access_extends (p : Ev → Bool) (hlog : ∀ b m, p (Ev.log b m) = true)
    (hth : ∀ q, p (Ev.thumbWrite q) = true)
    (thumb : Option ThumbData) (accessDestPath : String) (st : St) :
    Extends p st (alf_workdir_access thumb accessDestPath st).1 := by
  unfold alf_workdir_access
  exact make_access_file_extends p hlog hth thumb accessDestPath st

theorem alf_workdir_extends (p : Ev → Bool) (hlog : ∀ b m, p (Ev.log b m) = true)
    (hcp : ∀ a b, p (Ev.copyFile a b) = true) (hmv : ∀ a b, p (Ev.moveEv a b) = true)
    (hth : ∀ q, p (Ev.thumbWrite q) = true)
    (env : Env) (srcPath : String) (paths : AlfPaths) (st : St) :
    Extends p st (alf_workdir env srcPath paths st).1 := by
  unfold alf_workdir
  dsimp only
  rcases hcw : copy_to_workdir env srcPath paths.tmpPath paths.tmpPathRenamed
      (logOk st ("Copying to work dir")) with ⟨st₁, r₁⟩
  have h1 : Extends p st st₁ := by
    have h := copy_to_workdir_extends p hlog hcp hmv env srcPath paths.tmpPath
      paths.tmpPathRenamed (logOk st ("Copying to work dir"))
    rw [hcw] at h
    exact extends_trans (extends_logOk hlog _) h
  cases r₁ with
  | error e => exact h1
  | ok u =>
    dsimp only
    refine extends_trans ?_ (alf_workdir_access_extends p hlog hth _ _ _)
    refine extends_trans (extends_trans h1
      (extends_logOk hlog ("Making access file"))) ?_
    split
    · exact extends_logNotOk hlog _
    · exact extends_refl p _

theorem alf_fileobj_write_extends (p : Ev → Bool) (hlog : ∀ b m, p (Ev.log b m) = true)
    (hwj : ∀ q, p (Ev.writeJson q) = true)
    (env : Env) (f : FileObj) (tmpDir : String) (st : St) :
    Extends p st (alf_fileobj_write env f tmpDir st).1 := by
  unfold alf_fileobj_write
  rcases h : write_object_metadata env f.jsonPath tmpDir st with ⟨s, r⟩
  have hx := write_object_metadata_extends p hlog hwj env f.jsonPath tmpDir st
  rw [h] at hx
  cases r with
  | error e => exact hx
  | ok t => exact hx

theorem alf_fileobj_extends (p : Ev → Bool) (hlog : ∀ b m, p (Ev.log b m) = true)
    (hap : p Ev.appendChild = true) (hwj : ∀ q, p (Ev.writeJson q) = true)
    (env : Env) (entity : Entity) (srcPath role md5 sha1 sha256 : String)
    (paths : AlfPaths) (tmpAccessPath : Option String) (st : St) :
    Extends p st
      (alf_fileobj env entity srcPath role md5 sha1 sha256 paths tmpAccessPath st).1 := by
  unfold alf_fileobj
  dsimp only
  refine extends_trans ?_ (alf_fileobj_write_extends p hlog hwj env _ _ _)
  split <;> (try split) <;> (try split) <;> (try split) <;>
    exact extends_of_evs _
      (by simp [logOk, logNotOk, emit, List.append_assoc]; try rfl)
      (by simp [hlog, hap])

theorem cleanup_moves_extends (p : Ev → Bool) (hlog : ∀ b m, p (Ev.log b m) = true)
    (hmv : ∀ a b, p (Ev.moveEv a b) = true) (env : Env) :
    ∀ (nf : List (String × String)) (st : St), Extends p st (cleanup_moves env st nf).1 := by
  intro nf
  induction nf with
  | nil => intro st; exact extends_refl p st
  | cons hd rest ih =>
    obtain ⟨t, d⟩ := hd
    intro st
    unfold cleanup_moves
    dsimp only
    split
    · exact extends_trans (extends_logNotOk hlog _) (ih _)
    · rcases hsm : shutil_move env (logNotOk st ("| mv " ++ d ++ " " ++ t)) d t with ⟨st₂, r⟩
      have hext : Extends p st st₂ := by
        have h := shutil_move_extends p hmv env (logNotOk st ("| mv " ++ d ++ " " ++ t)) d t
        rw [hsm] at h
        exact extends_trans (extends_logNotOk hlog _) h
      cases r with
      | error e => exact hext
      | ok u => exact extends_trans hext (ih st₂)

theorem stage_show_extends (p : Ev → Bool) (hlog : ∀ b m, p (Ev.log b m) = true)
    (staged : List String) (shS : Bool) (st : St) :
    Extends p st (stage_show staged shS st) := by
  unfold stage_show
  split
  · exact extends_trans (extends_trans (extends_logOk hlog _) (extends_logOk hlog _))
      (foldl_extends _ (fun s a => extends_logOk hlog _) staged _)
  · exact extends_refl p st

theorem stage_finally_extends (p : Ev → Bool) (hlog : ∀ b m, p (Ev.log b m) = true)
    (hmv : ∀ a b, p (Ev.moveEv a b) = true) (env : Env) (st : St) (repo : String)
    (staged sN sA sP : List String) (nf : List (String × String)) (shS : Bool) :
    Extends p st (stage_finally env st repo staged sN sA sP nf shS).1 := by
  unfold stage_finally crashE
  dsimp only
  have hss : Extends p st (stage_show staged shS st) := stage_show_extends p hlog staged shS st
  split
  · exact extends_trans hss (extends_logOk hlog _)
  · rcases hcm : cleanup_moves env (logNotOk (logNotOk (stage_show staged shS st)
        (toString staged.length ++ " new files staged (should be " ++
          toString sP.length ++ ")"))
        ("File staging aborted. Cleaning up")) nf with ⟨st₂, r⟩
    have hext : Extends p st st₂ := by
      have h := cleanup_moves_extends p hlog hmv env nf
        (logNotOk (logNotOk (stage_show staged shS st)
          (toString staged.length ++ " new files staged (should be " ++
            toString sP.length ++ ")"))
          ("File staging aborted. Cleaning up"))
      rw [hcm] at h
      exact extends_trans (extends_trans (extends_trans hss (extends_logNotOk hlog _))
        (extends_logNotOk hlog _)) h
    cases r with
    | error e => exact hext
    | ok u =>
      exact extends_trans (extends_trans hext (extends_logNotOk hlog _))
        (extends_logNotOk hlog _)

theorem stage_files_extends (p : Ev → Bool) (hlog : ∀ b m, p (Ev.log b m) = true)
    (hst : p Ev.stageEv = true) (hanx : p Ev.annexStageEv = true)
    (hmv : ∀ a b, p (Ev.moveEv a b) = true) (env : Env) (entity : Entity)
    (gitFiles annexFiles : List String) (nf : List (String × String)) (shS : Bool)
    (st : St) :
    Extends p st (stage_files env entity gitFiles annexFiles nf shS st).1 := by
  unfold stage_files
  dsimp only
  split
  · refine extends_trans ?_ (stage_finally_extends p hlog hmv env _ _ _ _ _ _ _ _)
    refine extends_trans ?_ (extends_logNotOk hlog _)
    refine extends_trans ?_ (extends_emit hst)
    refine extends_trans ?_ (extends_logOk hlog _)
    refine extends_trans ?_ (foldl_extends _ (fun s a => extends_logOk hlog _) _ _)
    exact extends_trans (extends_logOk hlog _) (extends_logOk hlog _)
  · refine extends_trans ?_ (stage_finally_extends p hlog hmv env _ _ _ _ _ _ _ _)
    refine extends_trans ?_ (extends_logOk hlog _)
    refine extends_trans ?_ (extends_emit hanx)
    refine extends_trans ?_ (extends_logOk hlog _)
    refine extends_trans ?_ (extends_emit hst)
    refine extends_trans ?_ (extends_logOk hlog _)
    refine extends_trans ?_ (foldl_extends _ (fun s a => extends_logOk hlog _) _ _)
    exact extends_trans (extends_logOk hlog _) (extends_logOk hlog _)

theorem alf_stage_extends (p : Ev → Bool) (hlog : ∀ b m, p (Ev.log b m) = true)
    (hst : p Ev.stageEv = true) (hanx : p Ev.annexStageEv = true)
    (hmv : ∀ a b, p (Ev.moveEv a b) = true) (env : Env) (entity : Entity)
    (f : FileObj) (nf : List (String × String)) (shS : Bool) (st : St) :
    Extends p st (alf_stage env entity f nf shS st).1 := by
  unfold alf_stage
  dsimp only
  exact extends_trans (extends_logOk hlog ("Staging files"))
    (stage_files_extends p hlog hst hanx hmv env entity _ _ nf shS _)

theorem alf_after_move_extends (p : Ev → Bool) (hlog : ∀ b m, p (Ev.log b m) = true)
    (hst : p Ev.stageEv = true) (hanx : p Ev.annexStageEv = true)
    (hmv : ∀ a b, p (Ev.moveEv a b) = true) (env : Env) (entity : Entity)
    (f : FileObj) (nf : List (String × String)) (shS : Bool) (st : St) :
    Extends p st (alf_after_move env entity f nf shS st).1 := by
  unfold alf_after_move
  rcases hs : alf_stage env entity f nf shS st with ⟨st₁, r⟩
  have h := alf_stage_extends p hlog hst hanx hmv env entity f nf shS st
  rw [hs] at h
  cases r with
  | error e => exact h
  | ok repo => exact h

theorem evNoEJBM_log (b : Bool) (m : String) : evNoEJBM (Ev.log b m) = true := by
  simp [evNoEJBM, evIsBatchMoved]

theorem evNoEJBM_move (a b : String) : evNoEJBM (Ev.moveEv a b) = true := by
  simp [evNoEJBM, evIsBatchMoved]

theorem noEJ_log (b : Bool) (m : String) :
    (!((Ev.log b m) == Ev.writeEntityJson)) = true := by simp

theorem noEJ_move (a b : String) :
    (!((Ev.moveEv a b) == Ev.writeEntityJson)) = true := by simp

theorem ej_append_noEJBM (l₁ l₂ : List Ev) (h : l₁.all evNoEJBM = true) :
    ejOnlyAfterCleanMove (l₁ ++ l₂) = ejOnlyAfterCleanMove l₂ := by
  induction l₁ with
  | nil => simp
  | cons a t ih =>
    simp only [List.all_cons, Bool.and_eq_true] at h
    cases a <;> simp_all [ejOnlyAfterCleanMove, evNoEJBM, evIsBatchMoved]

theorem ej_all_noEJBM (l : List Ev) (h : l.all evNoEJBM = true) :
    ejOnlyAfterCleanMove l = true := by
  induction l with
  | nil => rfl
  | cons a t ih =>
    simp only [List.all_cons, Bool.and_eq_true] at h
    cases a <;> simp_all [ejOnlyAfterCleanMove, evNoEJBM, evIsBatchMoved]

theorem ej_bm_clean (δ : List Ev) :
    ejOnlyAfterCleanMove (Ev.batchMoved [] :: δ) = true := by
  simp [ejOnlyAfterCleanMove]

theorem ej_bm_failed (fails : List String) (δ : List Ev)
    (h : δ.all (fun e => !(e == Ev.writeEntityJson)) = true) :
    ejOnlyAfterCleanMove (Ev.batchMoved fails :: δ) = true := by
  simp [ejOnlyAfterCleanMove, h]

theorem nwbdc_append (l₁ l₂ : List Ev) (h : l₁.all evNoWriteNoDC = true) :
    noWriteBeforeDestCheck (l₁ ++ l₂) = noWriteBeforeDestCheck l₂ := by
  induction l₁ with
  | nil => simp
  | cons a t ih =>
    simp only [List.all_cons, Bool.and_eq_true] at h
    cases a <;> simp_all [noWriteBeforeDestCheck, evNoWriteNoDC, evWrite]

theorem nwbdc_all (l : List Ev) (h : l.all (fun e => !evWrite e) = true) :
    noWriteBeforeDestCheck l = true := by
  induction l with
  | nil => rfl
  | cons a t ih =>
    simp only [List.all_cons, Bool.and_eq_true] at h
    cases a <;> simp_all [noWriteBeforeDestCheck, evWrite]

theorem takeWhile_append_of_all {α : Type} (p : α → Bool) (l₁ l₂ : List α)
    (h : l₁.all p = true) :
    (l₁ ++ l₂).takeWhile p = l₁ ++ l₂.takeWhile p := by
  induction l₁ with
  | nil => simp
  | cons a t ih =>
    simp only [List.all_cons, Bool.and_eq_true] at h
    simp [List.takeWhile_cons, h.1, ih h.2]

theorem ejshapefrom_pre (st₀ st y : St) (δ₀ : List Ev)
    (hpre : st.evs = st₀.evs ++ δ₀) (ha : δ₀.all evNoEJBM = true)
    (h : EjShapeFrom st y) : EjShapeFrom st₀ y := by
  rcases h with ⟨δ, he, hd⟩ | ⟨δ₁, δ₂, he, hd⟩ | ⟨δ₁, fails, δ₂, he, hd1, hd2⟩
  · exact Or.inl ⟨δ₀ ++ δ, by rw [he, hpre, List.append_assoc], by simp_all⟩
  · exact Or.inr (Or.inl ⟨δ₀ ++ δ₁, δ₂, by
      rw [he, hpre]
      simp [List.append_assoc], by simp_all⟩)
  · exact Or.inr (Or.inr ⟨δ₀ ++ δ₁, fails, δ₂, by
      rw [he, hpre]
      simp [List.append_assoc], by simp_all, hd2⟩)

theorem ejshapefrom_absorb (st₀ y z : St) (δ₃ : List Ev)
    (hext : z.evs = y.evs ++ δ₃) (ha : δ₃.all evNoEJBM = true)
    (h : EjShapeFrom st₀ y) : EjShapeFrom st₀ z := by
  have hnoEJ : δ₃.all (fun e => !(e == Ev.writeEntityJson)) = true := by
    rw [List.all_eq_true] at ha ⊢
    intro e he
    have := ha e he
    rw [evNoEJBM, Bool.and_eq_true] at this
    exact this.1
  rcases h with ⟨δ, he, hd⟩ | ⟨δ₁, δ₂, he, hd⟩ | ⟨δ₁, fails, δ₂, he, hd1, hd2⟩
  · exact Or.inl ⟨δ ++ δ₃, by rw [hext, he, List.append_assoc], by simp_all⟩
  · exact Or.inr (Or.inl ⟨δ₁, δ₂ ++ δ₃, by
      rw [hext, he]
      simp [List.append_assoc], hd⟩)
  · exact Or.inr (Or.inr ⟨δ₁, fails, δ₂ ++ δ₃, by
      rw [hext, he]
      simp [List.append_assoc], hd1, by simp_all⟩)

theorem ejshapefrom_scanner (st₀ y : St) (h0 : st₀.evs = [])
    (h : EjShapeFrom st₀ y) : ejOnlyAfterCleanMove y.evs = true := by
  rcases h with ⟨δ, he, hd⟩ | ⟨δ₁, δ₂, he, hd⟩ | ⟨δ₁, fails, δ₂, he, hd1, hd2⟩
  · rw [he, h0, List.nil_append]
    exact ej_all_noEJBM δ hd
  · rw [he, h0, List.nil_append, ej_append_noEJBM δ₁ _ hd]
    exact ej_bm_clean δ₂
  · rw [he, h0, List.nil_append, ej_append_noEJBM δ₁ _ hd1]
    exact ej_bm_failed fails δ₂ hd2

/-- Shape of the relocation core: on every path the batch marker, when it
appears, is preceded only by logs and moves, and a failed batch marker is
never followed by the entity metadata write. -/
theorem alf_move_core_shape (env : Env) (entity : Entity)
    (nf : List (String × String)) (st : St) :
    EjShapeFrom st (alf_move_core env entity nf st).1 := by
  unfold alf_move_core
  rcases hmf : move_files env st nf with ⟨st₁, r⟩
  have h1 := move_files_extends evNoEJBM evNoEJBM_log evNoEJBM_move env nf st
  rw [hmf] at h1
  obtain ⟨δ₁, he₁, ha₁⟩ := h1
  have he₁x : st₁.evs = st.evs ++ δ₁ := he₁
  cases r with
  | error e => exact Or.inl ⟨δ₁, he₁, ha₁⟩
  | ok fails =>
    dsimp only
    by_cases hf : fails.isEmpty = true
    · have hfe : fails = [] := by
        cases fails with
        | nil => rfl
        | cons a l => simp [List.isEmpty] at hf
      subst hfe
      simp only [hf, if_true]
      refine Or.inr (Or.inl ⟨δ₁,
        [Ev.log true ("| all files moved"), Ev.log true ("Writing entity.json"),
         Ev.writeEntityJson], ?_, ha₁⟩)
      simp [he₁x, emit, logOk, stAddFile, List.append_assoc]
    · rw [Bool.not_eq_true] at hf
      simp only [hf, Bool.false_eq_true, if_false]
      obtain ⟨δ₂, he₂, ha₂⟩ :=
        move_new_files_back_extends (fun e => !(e == Ev.writeEntityJson))
          noEJ_log noEJ_move env
          (logNotOk (emit st₁ (Ev.batchMoved fails))
            ("Failed to place one or more new files to destination repo")) nf fails
      refine Or.inr (Or.inr ⟨δ₁, fails,
        Ev.log false ("Failed to place one or more new files to destination repo") :: δ₂,
        ?_, ha₁, ?_⟩)
      · rw [he₂]
        simp [he₁x, emit, logNotOk, List.append_assoc]
      · simp [ha₂]

theorem alf_move_shape (env : Env) (entity : Entity) (f : FileObj)
    (tmpFileJson : String) (paths : AlfPaths) (tAcc : Option String) (st : St) :
    EjShapeFrom st (alf_move env entity f tmpFileJson paths tAcc st).1 := by
  unfold alf_move
  dsimp only
  refine ejshapefrom_pre st (logOk st ("Moving files to dest_dir")) _
    [Ev.log true ("Moving files to dest_dir")] rfl (by simp [evNoEJBM_log]) ?_
  exact alf_move_core_shape env entity _ _

theorem alf_after_fileobj_shape (env : Env) (entity : Entity) (f : FileObj)
    (tmpFileJson : String) (paths : AlfPaths) (tAcc : Option String) (shS : Bool)
    (st : St) :
    EjShapeFrom st
      (alf_after_fileobj env entity f tmpFileJson paths tAcc shS st).1 := by
  unfold alf_after_fileobj
  rcases hm : alf_move env entity f tmpFileJson paths tAcc st with ⟨st₁, r⟩
  have hshape : EjShapeFrom st st₁ := by
    have h := alf_move_shape env entity f tmpFileJson paths tAcc st
    rw [hm] at h
    exact h
  cases r with
  | error e => exact hshape
  | ok nfl =>
    obtain ⟨δ₃, he₃, ha₃⟩ :=
      alf_after_move_extends evNoEJBM evNoEJBM_log (by rfl) (by rfl) evNoEJBM_move
        env entity f nfl shS st₁
    exact ejshapefrom_absorb st st₁ _ δ₃ he₃ ha₃ hshape

/-- Shape of the tail of add_local_file from the work directory segment on. -/
theorem alf_after_check_shape (env : Env) (entity : Entity)
    (srcPath role md5 sha1 sha256 : String) (paths : AlfPaths) (shS : Bool) (st : St) :
    EjShapeFrom st
      (alf_after_check env entity srcPath role md5 sha1 sha256 paths shS st).1 := by
  unfold alf_after_check
  rcases hw : alf_workdir env srcPath paths st with ⟨st₁, r₁⟩
  have h1 : Extends evNoEJBM st st₁ := by
    have h := alf_workdir_extends evNoEJBM evNoEJBM_log
      (fun a b => by simp [evNoEJBM, evIsBatchMoved]) evNoEJBM_move
      (fun q => by simp [evNoEJBM, evIsBatchMoved]) env srcPath paths st
    rw [hw] at h
    exact h
  obtain ⟨δ₁, he₁, ha₁⟩ := h1
  cases r₁ with
  | error e => exact Or.inl ⟨δ₁, he₁, ha₁⟩
  | ok tAcc =>
    dsimp only
    rcases hfo : alf_fileobj env entity srcPath role md5 sha1 sha256 paths tAcc st₁
      with ⟨st₂, r₂⟩
    have h2 : Extends evNoEJBM st₁ st₂ := by
      have h := alf_fileobj_extends evNoEJBM evNoEJBM_log
        (by simp [evNoEJBM, evIsBatchMoved])
        (fun q => by simp [evNoEJBM, evIsBatchMoved])
        env entity srcPath role md5 sha1 sha256 paths tAcc st₁
      rw [hfo] at h
      exact h
    obtain ⟨δ₂, he₂, ha₂⟩ := h2
    cases r₂ with
    | error e =>
      exact Or.inl ⟨δ₁ ++ δ₂, by rw [he₂, he₁, List.append_assoc], by simp_all⟩
    | ok pr =>
      obtain ⟨f, tmpFileJson⟩ := pr
      dsimp only
      refine ejshapefrom_pre st st₂ _ (δ₁ ++ δ₂)
        (by rw [he₂, he₁, List.append_assoc]) (by simp_all) ?_
      exact alf_after_fileobj_shape env entity f tmpFileJson paths tAcc shS st₂

/-- Shape of the whole add_local_file trace: the entity metadata write can
only follow a batch move marker with an empty failure list. -/
theorem add_local_file_shape (env : Env) (entity : Entity)
    (srcPath role dataRepr : String) (shS : Bool) (st : St) :
    EjShapeFrom st (add_local_file env entity srcPath role dataRepr shS st).1 := by
  unfold add_local_file
  rcases hv : alf_validate env entity srcPath dataRepr st with ⟨st₁, r₁⟩
  have h1 : Extends evNoEJBM st st₁ := by
    have h := alf_validate_extends evNoEJBM evNoEJBM_log
      (fun a => by simp [evNoEJBM, evIsBatchMoved])
      (by simp [evNoEJBM, evIsBatchMoved]) env entity srcPath dataRepr st
    rw [hv] at h
    exact h
  obtain ⟨δ₁, he₁, ha₁⟩ := h1
  cases r₁ with
  | error e => exact Or.inl ⟨δ₁, he₁, ha₁⟩
  | ok hashes =>
    obtain ⟨md5, sha1, sha256⟩ := hashes
    dsimp only
    rcases hi : alf_identify env entity srcPath role sha1 st₁ with ⟨st₂, paths⟩
    have h2 : Extends evNoEJBM st₁ st₂ := by
      have h := alf_identify_extends evNoEJBM evNoEJBM_log
        (by simp [evNoEJBM, evIsBatchMoved]) env entity srcPath role sha1 st₁
      rw [hi] at h
      exact h
    obtain ⟨δ₂, he₂, ha₂⟩ := h2
    rcases hc : alf_check env srcPath paths st₂ with ⟨st₃, r₃⟩
    have h3 : Extends evNoEJBM st₂ st₃ := by
      have h := alf_check_extends evNoEJBM evNoEJBM_log
        (by simp [evNoEJBM, evIsBatchMoved])
        (fun q => by simp [evNoEJBM, evIsBatchMoved]) env srcPath paths st₂
      rw [hc] at h
      exact h
    obtain ⟨δ₃, he₃, ha₃⟩ := h3
    cases r₃ with
    | error e =>
      exact Or.inl ⟨δ₁ ++ (δ₂ ++ δ₃),
        by rw [he₃, he₂, he₁]; simp [List.append_assoc], by simp_all⟩
    | ok u =>
      refine ejshapefrom_pre st st₃ _ (δ₁ ++ (δ₂ ++ δ₃))
        (by rw [he₃, he₂, he₁]; simp [List.append_assoc]) (by simp_all) ?_
      exact alf_after_check_shape env entity srcPath role md5 sha1 sha256 paths shS st₃

/-- C6 (amended): the persisted aggregate metadata is written last.  In
every run of add_local_file that starts from an empty trace, the entity
metadata write event appears only after a batch move marker whose failure
list is empty; the in-memory append of the child to the aggregate, by
contrast, happens before the relocation (see the counterexample theorem). -/
theorem c6_metadata_last (env : Env) (entity : Entity)
    (srcPath role dataRepr : String) (shS : Bool) (st : St) (h0 : st.evs = []) :
    ejOnlyAfterCleanMove
      (add_local_file env entity srcPath role dataRepr shS st).1.evs = true :=
  ejshapefrom_scanner st _ h0
    (add_local_file_shape env entity srcPath role dataRepr shS st)

theorem c6_metadata_last_witness :
    ejOnlyAfterCleanMove
      (add_local_file envC entityC ("/src/photo.jpg") ("master") ("{}")
        true stC).1.evs = true :=
  c6_metadata_last envC entityC ("/src/photo.jpg") ("master") ("{}") true stC rfl

theorem all_noWrite_of_noWriteNoDC (l : List Ev) (h : l.all evNoWriteNoDC = true) :
    l.all (fun e => !evWrite e) = true := by
  rw [List.all_eq_true] at h ⊢
  intro e he
  have hx := h e he
  rw [evNoWriteNoDC, Bool.and_eq_true] at hx
  exact hx.1

theorem ejshapefrom_evs (st₀ y : St) (h : EjShapeFrom st₀ y) :
    ∃ δ, y.evs = st₀.evs ++ δ := by
  rcases h with ⟨δ, he, -⟩ | ⟨δ₁, δ₂, he, -⟩ | ⟨δ₁, fails, δ₂, he, -, -⟩
  · exact ⟨δ, he⟩
  · exact ⟨δ₁ ++ Ev.batchMoved [] :: δ₂, he⟩
  · exact ⟨δ₁ ++ Ev.batchMoved fails :: δ₂, he⟩

theorem nwbdc_closes (pre rest : List Ev) (h : pre.all evNoWriteNoDC = true)
    (m : String) :
    noWriteBeforeDestCheck
      (pre ++ (Ev.log true m :: Ev.destCheck :: rest)) = true := by
  rw [nwbdc_append pre _ h]
  rfl

/-- In every run of add_local_file from an empty trace, no write to the
scratch area or the destination tree precedes the duplicate destination
check. -/
theorem add_local_file_nwbdc (env : Env) (entity : Entity)
    (srcPath role dataRepr : String) (shS : Bool) (st : St) (h0 : st.evs = []) :
    noWriteBeforeDestCheck
      (add_local_file env entity srcPath role dataRepr shS st).1.evs = true := by
  unfold add_local_file
  rcases hv : alf_validate env entity srcPath dataRepr st with ⟨st₁, r₁⟩
  have h1 : Extends evNoWriteNoDC st st₁ := by
    have h := alf_validate_extends evNoWriteNoDC
      (fun b m => by simp [evNoWriteNoDC, evWrite])
      (fun a => by simp [evNoWriteNoDC, evWrite])
      (by simp [evNoWriteNoDC, evWrite]) env entity srcPath dataRepr st
    rw [hv] at h
    exact h
  obtain ⟨δ₁, he₁, ha₁⟩ := h1
  cases r₁ with
  | error e =>
    dsimp only
    rw [he₁, h0, List.nil_append]
    exact nwbdc_all δ₁ (all_noWrite_of_noWriteNoDC δ₁ ha₁)
  | ok hashes =>
    obtain ⟨md5, sha1, sha256⟩ := hashes
    dsimp only
    rcases hi : alf_identify env entity srcPath role sha1 st₁ with ⟨st₂, paths⟩
    have h2 : Extends evNoWriteNoDC st₁ st₂ := by
      have h := alf_identify_extends evNoWriteNoDC
        (fun b m => by simp [evNoWriteNoDC, evWrite])
        (by simp [evNoWriteNoDC, evWrite]) env entity srcPath role sha1 st₁
      rw [hi] at h
      exact h
    obtain ⟨δ₂, he₂, ha₂⟩ := h2
    rcases hc : alf_check env srcPath paths st₂ with ⟨st₃, r₃⟩
    obtain ⟨δ₃, he₃⟩ := alf_check_evs env srcPath paths st₂
    rw [hc] at he₃
    have he₃x : st₃.evs =
        st₂.evs ++ (Ev.log true ("Checking files/dirs") :: Ev.destCheck :: δ₃) := he₃
    cases r₃ with
    | error e =>
      dsimp only
      have htr : st₃.evs = (δ₁ ++ δ₂) ++
          (Ev.log true ("Checking files/dirs") :: Ev.destCheck :: δ₃) := by
        rw [he₃x, he₂, he₁, h0]
        simp [List.append_assoc]
      rw [htr]
      exact nwbdc_closes _ _ (by simp_all) _
    | ok u =>
      obtain ⟨δ₄, he₄⟩ := ejshapefrom_evs st₃ _
        (alf_after_check_shape env entity srcPath role md5 sha1 sha256 paths shS st₃)
      have htr : (alf_after_check env entity srcPath role md5 sha1 sha256 paths
          shS st₃).1.evs = (δ₁ ++ δ₂) ++
          (Ev.log true ("Checking files/dirs") :: Ev.destCheck :: (δ₃ ++ δ₄)) := by
        rw [he₄, he₃x, he₂, he₁, h0]
        simp [List.append_assoc]
      rw [htr]
      exact nwbdc_closes _ _ (by simp_all) _

set_option maxRecDepth 20000 in
/-- C2 (amended): the duplicate destination check precedes every write to
the scratch area and the destination tree in every run of add_local_file
from an empty trace; however, checksum computation and identifier
derivation run before the duplicate check, as the concrete successful run
shows. -/
theorem c2_dup_check_order (env : Env) (entity : Entity)
    (srcPath role dataRepr : String) (shS : Bool) (st : St) (h0 : st.evs = []) :
    noWriteBeforeDestCheck
      (add_local_file env entity srcPath role dataRepr shS st).1.evs = true ∧
    (beforeDestCheck runC.1.evs).contains (Ev.checksum ("sha1")) = true ∧
    (beforeDestCheck runC.1.evs).contains Ev.deriveId = true := by
  refine ⟨add_local_file_nwbdc env entity srcPath role dataRepr shS st h0, ?_, ?_⟩ <;>
    decide

theorem c2_dup_check_order_witness :
    noWriteBeforeDestCheck
      (add_local_file envC entityC ("/src/photo.jpg") ("master") ("{}")
        true stC).1.evs = true ∧
    (beforeDestCheck runC.1.evs).contains (Ev.checksum ("sha1")) = true ∧
    (beforeDestCheck runC.1.evs).contains Ev.deriveId = true :=
  c2_dup_check_order envC entityC ("/src/photo.jpg") ("master") ("{}") true stC rfl

/-- A non raising thumbnail call whose only anomaly is a failure exit
status appends only ok audit lines: the exit status is echoed inside an ok
line and no not-ok entry is produced. -/
theorem make_access_file_status_only (d : ThumbData) (p : String) (st : St)
    (h1 : d.analysisStdErr = "") (h2 : d.stdErr = "") (h3 : d.outExists = true)
    (h4 : d.outSize ≠ 0) (h5 : d.outIsLink = false) :
    (make_access_file (some d) p st).1.evs = st.evs ++
      [Ev.log true ("| " ++ p), Ev.thumbWrite d.dest,
       Ev.log true ("| identify: " ++ d.stdOut),
       Ev.log true ("| " ++ d.convert),
       Ev.log true ("| convert: status:" ++ toString d.statusCode ++ " exists:" ++
         toString d.outExists ++ " islink:" ++ toString d.outIsLink ++ " size:" ++
         toString d.outSize),
       Ev.log true ("| done")] := by
  have hz : (d.outSize == 0) = false := by simp [h4]
  unfold make_access_file
  dsimp only
  simp [h1, h2, h3, h5, hz, logOk, logNotOk, emit, stAddFile, List.append_assoc]

set_option maxRecDepth 20000 in
/-- C3 (amended): when the thumbnail process raises, make_access_file logs
the traceback as a not-ok entry and returns no rendition path, and the
ingestion still completes with metadata and primary binary relocated and no
rendition recorded on the file object; on a non raising call each of the
anomalies identify stderr, convert stderr, missing output, zero length
output and symlink output produces a not-ok audit entry, whereas a failure
exit status alone produces none (it is only echoed inside an ok line), and
the reported destination path is returned in every non raising case. -/
theorem c3_rendition_failures (d : ThumbData) (p : String) (st : St) :
    ((make_access_file none p st).2 = none ∧
      Ev.log false ("Traceback (most recent call last): imaging.thumbnail raised") ∈
        (make_access_file none p st).1.evs) ∧
    ((make_access_file (some d) p st).2 = some d.dest ∧
      (d.analysisStdErr ≠ "" → Ev.log false ("| identify: " ++ d.analysisStdErr) ∈
        (make_access_file (some d) p st).1.evs) ∧
      (d.stdErr ≠ "" → Ev.log false ("| convert: " ++ d.stdErr) ∈
        (make_access_file (some d) p st).1.evs) ∧
      (d.outExists = false → Ev.log false ("Access file was not created!") ∈
        (make_access_file (some d) p st).1.evs) ∧
      (d.outSize = 0 → Ev.log false ("Dest file created but zero length!") ∈
        (make_access_file (some d) p st).1.evs) ∧
      (d.outIsLink = true → Ev.log false ("DEST FILE IS A SYMLINK!") ∈
        (make_access_file (some d) p st).1.evs) ∧
      (d.analysisStdErr = "" → d.stdErr = "" → d.outExists = true → d.outSize ≠ 0 →
        d.outIsLink = false →
        (make_access_file (some d) p st).1.evs = st.evs ++
          [Ev.log true ("| " ++ p), Ev.thumbWrite d.dest,
           Ev.log true ("| identify: " ++ d.stdOut),
           Ev.log true ("| " ++ d.convert),
           Ev.log true ("| convert: status:" ++ toString d.statusCode ++ " exists:" ++
             toString d.outExists ++ " islink:" ++ toString d.outIsLink ++ " size:" ++
             toString d.outSize),
           Ev.log true ("| done")])) ∧
    runC.2.toOption.map (fun pr => pr.1.accessAbs) = some none ∧
    runC.2.toOption.map (fun pr =>
      fsHas runC.1.fs pr.1.pathAbs && fsHas runC.1.fs pr.1.jsonPath) = some true := by
  refine ⟨⟨rfl, ?_⟩, ⟨rfl, ?_, ?_, ?_, ?_, ?_,
    make_access_file_status_only d p st⟩, by decide, by decide⟩
  · simp [make_access_file, logOk, logNotOk, emit]
  all_goals
    intro h
    unfold make_access_file
    dsimp only
    cases hA : d.analysisStdErr != "" <;> cases hB : d.stdErr != "" <;>
      cases hE : d.outExists <;> cases hZ : d.outSize == 0 <;>
      cases hL : d.outIsLink <;>
      simp_all [logOk, logNotOk, emit, stAddFile]

theorem c3_rendition_failures_witness :
    (make_access_file (some thumbZero) ("/tmp/a.jpg") stC).2 = some thumbZero.dest ∧
    Ev.log false ("Dest file created but zero length!") ∈
      (make_access_file (some thumbZero) ("/tmp/a.jpg") stC).1.evs :=
  ⟨(c3_rendition_failures thumbZero ("/tmp/a.jpg") stC).2.1.1,
   (c3_rendition_failures thumbZero ("/tmp/a.jpg") stC).2.1.2.2.2.2.1 rfl⟩

/-- C3 counterexample to the original claim: for a zero length rendition
(the destination file exists with size zero, failure exit status) the
function does not return a no-rendition marker: it returns the destination
path reported by the imaging call. -/
theorem c3_zero_length_returns_path :
    (make_access_file (some thumbZero) ("/tmp/a.jpg") stC).2 = some ("/tmp/access.jpg")
      ∧ thumbZero.outExists = true ∧ thumbZero.outSize = 0 := by decide

set_option maxRecDepth 20000 in
/-- C2 counterexample to the original claim: in the concrete successful run
a checksum event lies strictly before the duplicate destination check, so
checksum computation is not performed after that check. -/
theorem c2_checksum_before_dup_check :
    (beforeDestCheck runC.1.evs).contains (Ev.checksum ("md5")) = true := by decide

theorem checksums_error_iff (env : Env) (srcPath : String) (st : St) :
    ((checksums env srcPath st).2 =
        Except.error (Err.exception ("Could not calculate checksums"))) ↔
      (env.fileHash srcPath ("md5") = "" ∨ env.fileHash srcPath ("sha1") = "" ∨
        env.fileHash srcPath ("sha256") = "") := by
  unfold checksums crashE
  dsimp only
  split
  next hcond =>
    rw [Bool.or_eq_true, Bool.or_eq_true] at hcond
    simp only [beq_iff_eq] at hcond
    exact iff_of_true rfl (by tauto)
  next hcond =>
    rw [Bool.not_eq_true, Bool.or_eq_false_iff, Bool.or_eq_false_iff] at hcond
    simp only [beq_eq_false_iff_ne, ne_eq] at hcond
    exact iff_of_false (by simp) (by tauto)

theorem checksums_ok_eq (env : Env) (srcPath : String) (st : St)
    (h1 : env.fileHash srcPath ("md5") ≠ "") (h2 : env.fileHash srcPath ("sha1") ≠ "")
    (h3 : env.fileHash srcPath ("sha256") ≠ "") :
    (checksums env srcPath st).2 = Except.ok (env.fileHash srcPath ("md5"),
      env.fileHash srcPath ("sha1"), env.fileHash srcPath ("sha256")) := by
  unfold checksums crashE
  dsimp only
  rw [if_neg]
  rw [Bool.not_eq_true, Bool.or_eq_false_iff, Bool.or_eq_false_iff]
  simp [h1, h2, h3]

/-- Validation segment under a failing digest: the checksum step crashes
with a not-ok audit entry and the checksum exception. -/
theorem alf_validate_checksum_fail (env : Env) (entity : Entity)
    (srcPath dataRepr : String) (st : St)
    (hdir : env.dirExists srcPath = true) (hacc : env.access srcPath = true)
    (hbad : (env.fileHash srcPath ("sha1") == "" || env.fileHash srcPath ("md5") == ""
      || env.fileHash srcPath ("sha256") == "") = true) :
    (alf_validate env entity srcPath dataRepr st).2 =
      Except.error (Err.exception ("Could not calculate checksums")) ∧
    Ev.log false ("Could not calculate checksums") ∈
      (alf_validate env entity srcPath dataRepr st).1.evs := by
  constructor
  · simp [alf_validate, check_dir, checksums, crashE, hdir, hacc, hbad]
  · simp [alf_validate, check_dir, checksums, crashE, hdir, hacc, hbad,
      logOk, logNotOk, emit]

/-- C7: the checksums step fails exactly when a digest is empty, returning
the digest triple otherwise; when it fails inside add_local_file (with a
reachable source file), the checksum exception surfaces, no write to the
scratch area or the destination tree has occurred, and the audit trace
holds the not-ok entry of the checksum step. -/
theorem c7_checksum_failure (env : Env) (entity : Entity)
    (srcPath role dataRepr : String) (shS : Bool) (st : St)
    (hdir : env.dirExists srcPath = true) (hacc : env.access srcPath = true)
    (hbad : env.fileHash srcPath ("md5") = "" ∨ env.fileHash srcPath ("sha1") = "" ∨
      env.fileHash srcPath ("sha256") = "")
    (h0 : st.evs = []) :
    ((checksums env srcPath st).2 =
        Except.error (Err.exception ("Could not calculate checksums")) ↔
      (env.fileHash srcPath ("md5") = "" ∨ env.fileHash srcPath ("sha1") = "" ∨
        env.fileHash srcPath ("sha256") = "")) ∧
    (∀ (env2 : Env) (sp : String) (st2 : St),
      env2.fileHash sp ("md5") ≠ "" → env2.fileHash sp ("sha1") ≠ "" →
      env2.fileHash sp ("sha256") ≠ "" →
      (checksums env2 sp st2).2 = Except.ok (env2.fileHash sp ("md5"),
        env2.fileHash sp ("sha1"), env2.fileHash sp ("sha256"))) ∧
    (add_local_file env entity srcPath role dataRepr shS st).2 =
      Except.error (Err.exception ("Could not calculate checksums")) ∧
    (add_local_file env entity srcPath role dataRepr shS st).1.evs.all
      (fun e => !evWrite e) = true ∧
    Ev.log false ("Could not calculate checksums") ∈
      (add_local_file env entity srcPath role dataRepr shS st).1.evs := by
  have hbadb : (env.fileHash srcPath ("sha1") == "" || env.fileHash srcPath ("md5") == ""
      || env.fileHash srcPath ("sha256") == "") = true := by
    rcases hbad with h | h | h <;> simp [h]
  refine ⟨checksums_error_iff env srcPath st,
    fun env2 sp st2 h1 h2 h3 => checksums_ok_eq env2 sp st2 h1 h2 h3, ?_⟩
  unfold add_local_file
  rcases hv : alf_validate env entity srcPath dataRepr st with ⟨st₁, r₁⟩
  have hfail := alf_validate_checksum_fail env entity srcPath dataRepr st hdir hacc hbadb
  rw [hv] at hfail
  obtain ⟨hr, hmem⟩ := hfail
  have hr1 : r₁ = Except.error (Err.exception ("Could not calculate checksums")) := hr
  have hmem1 : Ev.log false ("Could not calculate checksums") ∈ st₁.evs := hmem
  subst hr1
  have hext := alf_validate_extends evNoWriteNoDC
    (fun b m => by simp [evNoWriteNoDC, evWrite])
    (fun a => by simp [evNoWriteNoDC, evWrite])
    (by simp [evNoWriteNoDC, evWrite]) env entity srcPath dataRepr st
  rw [hv] at hext
  obtain ⟨δ₁, he₁, ha₁⟩ := hext
  have he₁x : st₁.evs = st.evs ++ δ₁ := he₁
  refine ⟨rfl, ?_, hmem1⟩
  rw [he₁x, h0, List.nil_append]
  exact all_noWrite_of_noWriteNoDC δ₁ ha₁

theorem c7_checksum_failure_witness :
    ((checksums envBadHash ("/src/photo.jpg") stC).2 =
        Except.error (Err.exception ("Could not calculate checksums")) ↔
      (envBadHash.fileHash ("/src/photo.jpg") ("md5") = "" ∨
        envBadHash.fileHash ("/src/photo.jpg") ("sha1") = "" ∨
        envBadHash.fileHash ("/src/photo.jpg") ("sha256") = "")) ∧
    (∀ (env2 : Env) (sp : String) (st2 : St),
      env2.fileHash sp ("md5") ≠ "" → env2.fileHash sp ("sha1") ≠ "" →
      env2.fileHash sp ("sha256") ≠ "" →
      (checksums env2 sp st2).2 = Except.ok (env2.fileHash sp ("md5"),
        env2.fileHash sp ("sha1"), env2.fileHash sp ("sha256"))) ∧
    (add_local_file envBadHash entityC ("/src/photo.jpg") ("master") ("{}")
      true stC).2 =
      Except.error (Err.exception ("Could not calculate checksums")) ∧
    (add_local_file envBadHash entityC ("/src/photo.jpg") ("master") ("{}")
      true stC).1.evs.all (fun e => !evWrite e) = true ∧
    Ev.log false ("Could not calculate checksums") ∈
      (add_local_file envBadHash entityC ("/src/photo.jpg") ("master") ("{}")
        true stC).1.evs :=
  c7_checksum_failure envBadHash entityC ("/src/photo.jpg") ("master") ("{}") true stC
    rfl rfl (Or.inl rfl) rfl

set_option maxRecDepth 20000 in
/-- C6 counterexample to the original claim: in the concrete successful run
the child append event lies strictly before the batch move marker, so the
parent aggregate is mutated (child appended in memory) before any of the
new artifacts has been relocated. -/
theorem c6_child_append_before_relocation :
    (beforeBatchMoved runC.1.evs).contains Ev.appendChild = true := by decide

end DDR
